import Mathlib

/-!
# Verification of the personalized feed composition engine

Shallow embedding of the recommendation backend (`backend/reco/views.py`,
`backend/reco/models.py`, `backend/users/signals.py`,
`backend/reco/management/commands/train_ranker.py`) together with theorems
checking the natural-language specification against it.

Modelling conventions:
* Django querysets become Lean lists; an `order_by` clause becomes a stable
  insertion sort (`List.insertionSort`), and a queryset with no `order_by`
  is read in stored list order.
* Python floats become `ℚ`.  The transcendental subterms (`np.log1p`, the
  L2-norm cosine, Python's string `hash`) are abstracted as parameters of a
  context record, since no claim depends on their values; the structure of
  the code around them (`None` guards, `% 997`, fixed feature positions) is
  embedded faithfully.
* The Django cache is a pure cache-aside optimisation (`cache.get` miss
  recomputes the same value), so cached reads are embedded as the
  recomputation they fall back to.
* Machine dates are day numbers (`Int`); an empty or unparseable date string
  is `none` (`_parse_date` returns `None`).
-/

namespace Reco

/-- Python `str.lower()`.  (Structural over the character list: the core
byte-position string loops do not kernel-reduce.) -/
def pyLower (s : String) : String := ⟨s.data.map Char.toLower⟩

/-- Python `str.upper()`. -/
def pyUpper (s : String) : String := ⟨s.data.map Char.toUpper⟩

/-- Python `str.strip()`: whitespace removed from both ends. -/
def pyTrim (s : String) : String :=
  ⟨((s.data.dropWhile Char.isWhitespace).reverse.dropWhile Char.isWhitespace).reverse⟩

/-- `a.startswith(b)` respectively `isPrefixOf`, structurally. -/
def strStarts (pre s : String) : Bool := pre.data.isPrefixOf s.data

/-- Python `str.title()`: upper-case every alphabetic character that follows
a non-alphabetic one, lower-case the other alphabetic characters. -/
def pyTitleCaseAux : Bool → List Char → List Char
  | _, [] => []
  | prevAlpha, c :: cs =>
    let c' := if c.isAlpha then (if prevAlpha then c.toLower else c.toUpper) else c
    c' :: pyTitleCaseAux c.isAlpha cs

def pyTitleCase (s : String) : String := ⟨pyTitleCaseAux false s.data⟩

/-- `_norm` in `views.py`: `str(s or "").strip().lower()`. -/
def norm (s : String) : String := pyLower (pyTrim s)

/-- First occurrences of a list, in first-seen order (Python
`dict.fromkeys` / manual `seen` sets). -/
def dedupFirstAux (seen : List Nat) : List Nat → List Nat
  | [] => []
  | x :: xs => if x ∈ seen then dedupFirstAux seen xs else x :: dedupFirstAux (x :: seen) xs

def dedupFirst (l : List Nat) : List Nat := dedupFirstAux [] l

/-- A `collections.Counter` as an association list in insertion order. -/
def counterAdd (c : List (String × Nat)) (k : String) : List (String × Nat) :=
  if c.any (·.1 = k) then c.map (fun p => if p.1 = k then (p.1, p.2 + 1) else p)
  else c ++ [(k, 1)]

def counterOf (ks : List String) : List (String × Nat) := ks.foldl counterAdd []

/-- `Counter.most_common(n)`: keys sorted by descending count, ties kept in
insertion order (Python's `sorted` is stable). -/
def mostCommon (n : Nat) (c : List (String × Nat)) : List String :=
  ((c.insertionSort (fun a b => b.2 ≤ a.2)).map (·.1)).take n

/-! ## Data model (`users/models.py`, `reco/models.py`) -/

/-- `users.models.Title`, restricted to the fields the engine reads
(`RANK_FIELDS`, genre/cast/keyword attributes, display label fields).
Dates are day numbers; `none` stands for an empty or unparseable string. -/
structure TitleRec where
  id : Nat
  type : String
  title : String
  originalTitle : String
  releaseDate : Option Int
  firstAirDate : Option Int
  voteAverage : ℚ
  voteCount : ℚ
  popularity : ℚ
  originalLanguage : String
  primaryGenreNorm : String
  genre : String
  cast : List String
  keywords : List String
deriving Repr, DecidableEq

/-- `reco.models.TitleAction` (append-only interaction event). -/
structure ActionRec where
  profileId : Nat
  titleId : Nat
  action : String
  createdAt : Int
deriving Repr, DecidableEq

/-- `reco.models.TitleImpression`. -/
structure ImpressionRec where
  profileId : Nat
  titleId : Nat
  createdAt : Int
deriving Repr, DecidableEq

/-- `reco.models.TitleEmbedding` for the fixed `model_name`; `vectorBlob`
is the decoded `np.frombuffer` result, `none` when the blob is falsy;
`vectorJson` is the legacy `vector` JSON field (read by `train_ranker`),
falsy when empty. -/
structure EmbeddingRec where
  titleId : Nat
  vectorBlob : Option (List ℚ)
  vectorJson : List ℚ
deriving Repr, DecidableEq

/-- `reco.models.TitleSimilar` for the fixed `model_name`. -/
structure SimilarRec where
  titleId : Nat
  similarId : Nat
  score : ℚ
deriving Repr, DecidableEq

/-- `reco.models.RecoModelArtifact`.  `model` is the result of
`pickle.loads(model_blob)`: `none` when deserialisation raises; a loaded
model maps a feature matrix to scores, `none` modelling a raised
exception inside `predict`.  `featureSchema` is the stored JSON mapping
feature name to column index. -/
structure ArtifactRec where
  name : String
  model : Option (List (List ℚ) → Option (List ℚ))
  featureSchema : List (String × Nat)
  trainedAt : Int

/-- `users.models.Profile`, restricted to what the engine reads. -/
structure ProfileRec where
  id : Nat
  languagePreference : String
deriving Repr, DecidableEq

/-- The database as read by the engine.  Lists are in storage order;
ordered queries sort explicitly.  The attribute index tables
(`TitleCompany`, `TitleNetwork`, `TitleCountry`, `Actor`, `TitleKeyword`)
are `(title_id, normalised value)` pairs. -/
structure Db where
  titles : List TitleRec
  actions : List ActionRec
  impressions : List ImpressionRec
  embeddings : List EmbeddingRec
  similars : List SimilarRec
  companies : List (Nat × String)
  networks : List (Nat × String)
  countries : List (Nat × String)
  actorsIdx : List (Nat × String)
  keywordsIdx : List (Nat × String)
  artifacts : List ArtifactRec

/-- Ambient request context: `today` is `timezone.now().date()` as a day
number, `nowTs` is `timezone.now()` as a timestamp, `pyHash` abstracts
Python's string `hash`, `log1p` abstracts `math.log1p`, and `cosineCore`
abstracts `np.dot(a, b) / (norm(a) * norm(b))` (including its zero-norm
guard) — no claim depends on their values. -/
structure Ctx where
  today : Int
  nowTs : Int
  pyHash : String → Nat
  log1p : ℚ → ℚ
  cosineCore : List ℚ → List ℚ → ℚ

/-! ## Basic helpers (`views.py`) -/

/-- `_primary_genre`: first comma-separated segment (the prefix before the
first comma, i.e. `split(",")[0]`), stripped, lowered. -/
def primaryGenre (genreCsv : String) : String :=
  norm ⟨genreCsv.data.takeWhile (· ≠ ',')⟩

/-- `_freshness_days`: days since release or first-air date, `9999` when
no date parses (maximally stale, never an error). -/
def freshnessDays (ctx : Ctx) (t : TitleRec) : Int :=
  match t.releaseDate.orElse (fun _ => t.firstAirDate) with
  | none => 9999
  | some d => ctx.today - d

/-- Find a title row by id (`title_by_id` dict lookup). -/
def findTitle (db : Db) (tid : Nat) : Option TitleRec :=
  db.titles.find? (·.id = tid)

/-- Embedding lookup: the decoded vector for a title when the stored blob
is truthy (`_bulk_fill_embeddings` / `emb_cache`). -/
def embFor (db : Db) (tid : Nat) : Option (List ℚ) :=
  match db.embeddings.find? (·.titleId = tid) with
  | some e => e.vectorBlob
  | none => none

/-- `_cosine`: `0.0` when either argument is `None`, otherwise the real
cosine (abstracted in `Ctx.cosineCore`, which owns the zero-norm guard). -/
def cosineOpt (ctx : Ctx) (a b : Option (List ℚ)) : ℚ :=
  match a, b with
  | some va, some vb => ctx.cosineCore va vb
  | _, _ => 0

/-! ## Candidate-source queries (`views.py` planner lambdas)

Each `order_by` becomes a stable insertion sort; ties (which Django leaves
to the database) keep storage order. -/

/-- `order_by("-popularity", "-vote_average")`. -/
def popVaDesc (a b : TitleRec) : Prop :=
  b.popularity < a.popularity ∨ (a.popularity = b.popularity ∧ b.voteAverage ≤ a.voteAverage)

instance : DecidableRel popVaDesc := fun a b => by unfold popVaDesc; infer_instance

def popularIds (db : Db) : List Nat :=
  ((db.titles.insertionSort popVaDesc).map (·.id)).take 900

/-- `order_by("-vote_average", "-vote_count")`. -/
def vaVcDesc (a b : TitleRec) : Prop :=
  b.voteAverage < a.voteAverage ∨ (a.voteAverage = b.voteAverage ∧ b.voteCount ≤ a.voteCount)

instance : DecidableRel vaVcDesc := fun a b => by unfold vaVcDesc; infer_instance

def topRatedIds (db : Db) : List Nat :=
  ((db.titles.insertionSort vaVcDesc).map (·.id)).take 900

/-- `filter(type="movie").exclude(release_date="").order_by("-release_date")`. -/
def newMoviesIds (db : Db) (limit : Nat) : List Nat :=
  (((db.titles.filter (fun t => t.type = "movie" && t.releaseDate.isSome)).insertionSort
      (fun a b => b.releaseDate.getD 0 ≤ a.releaseDate.getD 0)).map (·.id)).take limit

def tvHitsIds (db : Db) : List Nat :=
  (((db.titles.filter (·.type = "tv")).insertionSort popVaDesc).map (·.id)).take 900

def inLangIds (db : Db) (lang : String) : List Nat :=
  (((db.titles.filter (·.originalLanguage = lang)).insertionSort popVaDesc).map (·.id)).take 900

/-- The literal `7.2` (`36/5`) as a raw rational: `Rat.div` normalises
through `Nat.gcd`, which the kernel cannot reduce, so the constant is
spelled in lowest terms directly. -/
def sevenPointTwo : ℚ := ⟨36, 5, by norm_num, by norm_num⟩

/-- Hidden gems: `vote_average ≥ 7.2`, `vote_count ≥ 250`, ascending
popularity with descending vote-average tiebreak, first 600. -/
def hiddenGemsIds (db : Db) : List Nat :=
  (((db.titles.filter (fun t => sevenPointTwo ≤ t.voteAverage && (250 : ℚ) ≤ t.voteCount)).insertionSort
      (fun a b => a.popularity < b.popularity ∨
        (a.popularity = b.popularity ∧ b.voteAverage ≤ a.voteAverage))).map (·.id)).take 600

/-- `filter(type="tv").exclude(first_air_date="").order_by("-first_air_date")`. -/
def freshTvIds (db : Db) : List Nat :=
  (((db.titles.filter (fun t => t.type = "tv" && t.firstAirDate.isSome)).insertionSort
      (fun a b => b.firstAirDate.getD 0 ≤ a.firstAirDate.getD 0)).map (·.id)).take 450

/-- `_cached_trending_ids(hours=72)`: outbound actions of the last 72h,
distinct title ids ordered by descending action count, first 1200. -/
def trendingIds (ctx : Ctx) (db : Db) : List Nat :=
  let acts := db.actions.filter (fun a => a.action = "outbound" && ctx.nowTs - 259200 ≤ a.createdAt)
  let tids := dedupFirst (acts.map (·.titleId))
  ((tids.insertionSort (fun x y =>
      (acts.filter (·.titleId = y)).length ≤ (acts.filter (·.titleId = x)).length)).take 1200)

/-- Similar ids for a set of seed titles, by descending score
(`TitleSimilar.objects.filter(title_id__in=...).order_by("-score")`). -/
def simIdsForSeeds (db : Db) (seeds : List Nat) (limit : Nat) : List Nat :=
  (((db.similars.filter (fun s => s.titleId ∈ seeds)).insertionSort
      (fun a b => b.score ≤ a.score)).map (·.similarId)).take limit

def simIdsFor (db : Db) (tid : Nat) (limit : Nat) : List Nat :=
  simIdsForSeeds db [tid] limit

/-- Genre value of a title: `primary_genre_norm` normalised, else the first
CSV segment of `genre` (`views.py` genre counting). -/
def titleGenreKey (t : TitleRec) : String :=
  let g := norm t.primaryGenreNorm
  if g ≠ "" then g else primaryGenre t.genre

/-- Top 1–2 genres across the profile's recent titles (cache-aside value of
`reco:home:top_genres:p<id>`). -/
def topGenres (db : Db) (recent : List Nat) : List String :=
  let recentTitles := db.titles.filter (fun t => t.id ∈ recent.take 80)
  mostCommon 2 (counterOf ((recentTitles.map titleGenreKey).filter (· ≠ "")))

def genreIds (db : Db) (g : String) : List Nat :=
  (((db.titles.filter (·.primaryGenreNorm = g)).insertionSort popVaDesc).map (·.id)).take 250

/-- `_values_for_seed_titles`: attribute values of the seed titles,
nulls and empty strings excluded, first 4000. -/
def valuesForSeeds (tbl : List (Nat × String)) (seeds : List Nat) : List String :=
  ((tbl.filter (fun p => p.1 ∈ seeds && p.2 ≠ "")).map (·.2)).take 4000

/-- `_ids_from_index`: distinct title ids carrying the normalised value. -/
def idsFromIndex (tbl : List (Nat × String)) (v : String) (limit : Nat) : List Nat :=
  let v' := norm v
  if v' = "" then []
  else (dedupFirst ((tbl.filter (·.2 = v')).map (·.1))).take limit

/-- `_ids_from_table` over an exact-match filter (actors, keywords). -/
def idsFromTable (tbl : List (Nat × String)) (v : String) (limit : Nat) : List Nat :=
  (dedupFirst ((tbl.filter (·.2 = v)).map (·.1))).take limit

/-- Language-filtered trending row candidates. -/
def langTrendIds (db : Db) (trend : List Nat) (lang : String) : List Nat :=
  (((db.titles.filter (fun t => t.id ∈ trend && t.originalLanguage = lang)).insertionSort
      popVaDesc).map (·.id)).take 700

/-! ## Profile vector (`_build_profile_vector`) -/

/-- `TitleAction.objects.filter(profile_id=...).order_by("-created_at")`. -/
def actionsOfProfile (db : Db) (pid : Nat) : List ActionRec :=
  (db.actions.filter (·.profileId = pid)).insertionSort
    (fun a b => b.createdAt ≤ a.createdAt)

def addVec (a b : List ℚ) : List ℚ := a.zipWith (· + ·) b

/-- `np.mean(np.stack(vecs), axis=0)` (all vectors share the model's
dimension, as `np.stack` requires). -/
def meanVec : List (List ℚ) → List ℚ
  | [] => []
  | v :: rest => (rest.foldl addVec v).map (· / ((rest.length + 1 : Nat) : ℚ))

/-- `_build_profile_vector(profile_id, limit=80)`: unweighted mean of the
resolvable embedding vectors of the most recent `limit` actions. -/
def buildProfileVector (db : Db) (pid : Nat) (limit : Nat) : Option (List ℚ) :=
  let ids := ((actionsOfProfile db pid).map (·.titleId)).take limit
  if ids = [] then none
  else
    let vecs := ids.filterMap (embFor db)
    if vecs = [] then none else some (meanVec vecs)

/-! ## Weighted profile vector (`train_ranker._profile_vec`) -/

/-- Weights used by the training-side profile vector. -/
def actionWeight (a : String) : ℚ :=
  if a = "outbound" then 4 else if a = "add_to_list" then 3
  else if a = "like" then 2 else if a = "click" then 1 else 1

def strongActionNames : List String := ["outbound", "add_to_list", "like", "click"]

/-- Legacy-field embedding map of `train_ranker` (`e.vector`, truthy only). -/
def embJsonFor (db : Db) (tid : Nat) : Option (List ℚ) :=
  match db.embeddings.find? (·.titleId = tid) with
  | some e => if e.vectorJson = [] then none else some e.vectorJson
  | none => none

/-- `train_ranker._profile_vec`: strength-weighted mean over the most
recent strong actions (the spec's §4.2 `buildProfileVector` description). -/
def trainProfileVec (db : Db) (pid : Nat) (limit : Nat) : Option (List ℚ) :=
  let acts := ((db.actions.filter (fun a => a.profileId = pid && a.action ∈ strongActionNames)).insertionSort
      (fun a b => b.createdAt ≤ a.createdAt)).take limit
  let contrib := acts.filterMap (fun a =>
    (embJsonFor db a.titleId).map (fun v => (v.map (actionWeight a.action * ·), actionWeight a.action)))
  let wsum : ℚ := (contrib.map (·.2)).sum
  match contrib.map (·.1) with
  | [] => none
  | v :: rest => if wsum = 0 then none else some ((rest.foldl addVec v).map (· / wsum))

/-! ## Ranker artifact (`_get_latest_ranker`) -/

/-- `RecoModelArtifact.objects.filter(name=...).order_by("-trained_at").first()`. -/
def latestArtifact (db : Db) : Option ArtifactRec :=
  ((db.artifacts.filter (·.name = "lgbm_ranker_v1")).insertionSort
    (fun a b => b.trainedAt ≤ a.trainedAt)).head?

/-- `_get_latest_ranker`: `(None, None)` when the artifact is absent or
`pickle.loads` raises, else the loaded model with its stored schema. -/
def getLatestRanker (db : Db) :
    Option (List (List ℚ) → Option (List ℚ)) × List (String × Nat) :=
  match latestArtifact db with
  | none => (none, [])
  | some a =>
    match a.model with
    | none => (none, [])
    | some m => (some m, a.featureSchema)

/-! ## Rank + pick (`_rank_and_pick_ids`) -/

/-- One feature vector of the serving path, in the construction order of
`_rank_and_pick_ids`. -/
structure FeatureRow where
  cosine : ℚ
  popularity : ℚ
  voteAverage : ℚ
  logVoteCount : ℚ
  freshness : ℚ
  langMatch : ℚ
  isMovie : ℚ
  isTv : ℚ
  position : ℚ
  rowHash : ℚ
deriving Repr, DecidableEq

/-- The fixed column order the serving path appends to `X`:
`[cosine, pop, va, log_vc, fresh, lang_match, is_movie, is_tv, pos, row_hash]`. -/
def featVec (f : FeatureRow) : List ℚ :=
  [f.cosine, f.popularity, f.voteAverage, f.logVoteCount, f.freshness,
   f.langMatch, f.isMovie, f.isTv, f.position, f.rowHash]

/-- Feature construction for one candidate (`views.py` lines 367–381). -/
def featureRow (ctx : Ctx) (lang : String) (profVec : Option (List ℚ))
    (rowHash : ℚ) (pos : Nat) (t : TitleRec) (vec : Option (List ℚ)) : FeatureRow where
  cosine := if profVec.isSome then cosineOpt ctx profVec vec else 0
  popularity := t.popularity
  voteAverage := t.voteAverage
  logVoteCount := ctx.log1p t.voteCount
  freshness := (freshnessDays ctx t : ℚ)
  langMatch := if lang ≠ "" && t.originalLanguage = lang then 1 else 0
  isMovie := if pyLower t.type = "movie" then 1 else 0
  isTv := if pyLower t.type = "tv" then 1 else 0
  position := (pos : ℚ)
  rowHash := rowHash

/-- The deterministic heuristic fallback score (`views.py` lines 396–401). -/
def fallbackScore (f : FeatureRow) : ℚ :=
  (55/100) * f.cosine + (25/100) * (f.voteAverage / 10) + (20/100) * (f.popularity / 100)
    + (5/100) * f.langMatch - (2/100000) * f.freshness

/-- Score resolution (`views.py` lines 385–401): the model is used when it
is loaded and `predict` does not raise; otherwise every candidate gets the
heuristic score. -/
def rowScores (model : Option (List (List ℚ) → Option (List ℚ)))
    (X : List FeatureRow) : List ℚ :=
  match model with
  | some m =>
    match m (X.map featVec) with
    | some s => s
    | none => X.map fallbackScore
  | none => X.map fallbackScore

/-- Candidate filtering (`views.py` lines 346–354): drop excluded ids,
in-call duplicates, and ids without a fetched title row, preserving
first-seen order. -/
def filterCands (db : Db) (excl : List Nat) (seen : List Nat) : List Nat → List Nat
  | [] => []
  | tid :: rest =>
    if tid ∈ excl ∨ tid ∈ seen then filterCands db excl seen rest
    else if (findTitle db tid).isNone then filterCands db excl seen rest
    else tid :: filterCands db excl (tid :: seen) rest

/-- Zero feature row for the unreachable lookup-miss branch (`filterCands`
keeps only ids with a title row, so `title_by_id[tid]` never misses). -/
def zeroFeatureRow : FeatureRow := ⟨0, 0, 0, 0, 0, 0, 0, 0, 0, 0⟩

/-- `_rank_and_pick_ids`: returns the selected ids of one row (the returned
`picked_set` is the same ids as a set).  `title_by_id` is embedded as the
full title lookup, with which it coincides on every consulted id. -/
def rankAndPickIds (ctx : Ctx) (db : Db) (profile : ProfileRec)
    (profVec : Option (List ℚ)) (model : Option (List (List ℚ) → Option (List ℚ)))
    (rowType : String) (candIds : List Nat) (k : Nat) (excl : List Nat) : List Nat :=
  if candIds = [] then []
  else
    let uniq := filterCands db excl [] candIds
    if uniq.length < 4 then []
    else
      let lang := profile.languagePreference
      let rowHash : ℚ := ((ctx.pyHash rowType % 997 : Nat) : ℚ)
      let X := uniq.enum.map (fun p =>
        match findTitle db p.2 with
        | some t => featureRow ctx lang profVec rowHash p.1 t (embFor db p.2)
        | none => zeroFeatureRow)
      let scores := rowScores model X
      let ranked := (uniq.zip scores).insertionSort (fun a b => b.2 ≤ a.2)
      ((ranked.take k).map (·.1))

/-- A ranked, deduplicated row (`rows_plan` entry). -/
structure RankedRow where
  rowType : String
  title : String
  ids : List Nat
deriving Repr, DecidableEq

/-- A planned row: `(row_type, display label, candidate ids, target size)`. -/
abbrev PlannedRow := String × String × List Nat × Nat

/-- The ranking loop of `RecoHomeView.get` (lines 751–776): rank each
planned row against the growing exclusion set; keep non-empty rows and
union their picks into the exclusion set before the next row. -/
def rankLoop (ctx : Ctx) (db : Db) (profile : ProfileRec)
    (profVec : Option (List ℚ)) (model : Option (List (List ℚ) → Option (List ℚ))) :
    List PlannedRow → List Nat → List RankedRow
  | [], _ => []
  | (rt, label, cands, k) :: rest, excl =>
    let picked := rankAndPickIds ctx db profile profVec model rt cands k excl
    if picked = [] then rankLoop ctx db profile profVec model rest excl
    else ⟨rt, label, picked⟩ :: rankLoop ctx db profile profVec model rest (excl ++ picked)

/-! ## Candidate source planner (`RecoHomeView.get`, planning section)

Wall-clock time is abstract: each call to `_can_continue` samples a
monotone clock, so the time component of the n-th call passes exactly when
`n < budget` (`time.perf_counter() < deadline` is monotonically
falsified).  `budget` large means the deadline is never hit. -/

def MAX_PLANNED_ROWS : Nat := 14

structure PlanSt where
  ticks : Nat
  rows : List PlannedRow

/-- `planned_rows.append(...)`. -/
def addRow (st : PlanSt) (r : PlannedRow) : PlanSt := { st with rows := st.rows ++ [r] }

/-- One `_can_continue()` call: both the deadline and the row cap, sampled
before the tick is consumed. -/
def okCont (budget : Nat) (st : PlanSt) : Bool :=
  decide (st.ticks < budget) && decide (st.rows.length < MAX_PLANNED_ROWS)

def tick (st : PlanSt) : PlanSt := { st with ticks := st.ticks + 1 }

/-- Cold-start block: four global rows after one `_can_continue` check,
plus a language row behind its own check. -/
def coldBlock (db : Db) (profile : ProfileRec) (recent : List Nat) (B : Nat)
    (st : PlanSt) : PlanSt :=
  if recent = [] then
    let ok := okCont B st
    let st := tick st
    if ok then
      let st := addRow st ("popular", "Popular right now", popularIds db, 30)
      let st := addRow st ("top_rated", "Top rated", topRatedIds db, 30)
      let st := addRow st ("new_movies", "New movies", newMoviesIds db 900, 30)
      let st := addRow st ("tv_hits", "TV hits", tvHitsIds db, 30)
      let lang := profile.languagePreference
      if lang ≠ "" then
        let ok2 := okCont B st
        let st := tick st
        if ok2 then addRow st ("in_lang", "In " ++ pyUpper lang, inLangIds db lang, 30)
        else st
      else st
    else st
  else st

/-- "For you" block: similars of the 6 most recent action titles. -/
def forYouBlock (db : Db) (recent : List Nat) (B : Nat) (st : PlanSt) : PlanSt :=
  if recent ≠ [] then
    let ok := okCont B st
    let st := tick st
    if ok then addRow st ("for_you", "For you", simIdsForSeeds db (recent.take 6) 800, 30)
    else st
  else st

/-- Display name for a "Because you watched" row. -/
def seedName (db : Db) (tid : Nat) : String :=
  match findTitle db tid with
  | some t => if t.title ≠ "" then t.title else if t.originalTitle ≠ "" then t.originalTitle else "this"
  | none => "this"

/-- "Because you watched" block: up to 2 rows (the first 2 distinct recent
titles) appended after a single `_can_continue` check. -/
def becauseBlock (db : Db) (recent : List Nat) (B : Nat) (st : PlanSt) : PlanSt :=
  if recent ≠ [] then
    let ok := okCont B st
    let st := tick st
    if ok then
      ((dedupFirst recent).take 2).foldl (fun st tid =>
        addRow st ("because:" ++ toString tid,
          "Because you watched " ++ seedName db tid, simIdsFor db tid 700, 30)) st
    else st
  else st

/-- Inner loop of the genre block: `_can_continue` is checked before each
genre row and a failed check breaks out of the loop. -/
def genreLoop (db : Db) (B : Nat) : List String → PlanSt → PlanSt
  | [], st => st
  | g :: gs, st =>
    let ok := okCont B st
    let st := tick st
    if ok then
      genreLoop db B gs (addRow st ("genre:" ++ g, "More " ++ pyTitleCase g, genreIds db g, 30))
    else st

def genresBlock (db : Db) (recent : List Nat) (B : Nat) (st : PlanSt) : PlanSt :=
  if recent ≠ [] then
    let ok := okCont B st
    let st := tick st
    if ok then genreLoop db B ((topGenres db recent).take 2) st
    else st
  else st

/-- One stanza of the studio/network/country block: the row is appended
when the attribute values are non-empty and `_can_continue` passes; the
row is built from the most common value. -/
def sncStep (B : Nat) (vals : List String) (mk : String → PlannedRow)
    (st : PlanSt) : PlanSt :=
  if vals ≠ [] then
    let ok := okCont B st
    let st := tick st
    if ok then addRow st (mk ((mostCommon 1 (counterOf vals)).headD "")) else st
  else st

/-- Studio / network / country affinity block: after one outer check, each
of the three rows is guarded by value presence plus its own check. -/
def sncBlock (db : Db) (recent : List Nat) (B : Nat) (st : PlanSt) : PlanSt :=
  if recent ≠ [] then
    let ok := okCont B st
    let st := tick st
    if ok then
      let seed80 := recent.take 80
      let st := sncStep B (valuesForSeeds db.companies seed80)
        (fun comp => ("studio:" ++ comp, "From " ++ pyTitleCase comp,
          idsFromIndex db.companies comp 600, 30)) st
      let st := sncStep B (valuesForSeeds db.networks seed80)
        (fun net => ("network:" ++ net, "On " ++ pyTitleCase net,
          idsFromIndex db.networks net 600, 30)) st
      sncStep B (valuesForSeeds db.countries seed80)
        (fun ctry => ("country:" ++ ctry, "Made in " ++ pyUpper ctry,
          idsFromIndex db.countries ctry 600, 30)) st
    else st
  else st

/-- Actors / keywords block: up to 2 + 2 rows after one check. -/
def actkwBlock (db : Db) (recent : List Nat) (B : Nat) (st : PlanSt) : PlanSt :=
  if recent ≠ [] then
    let ok := okCont B st
    let st := tick st
    if ok then
      let recentTitles := db.titles.filter (fun t => t.id ∈ recent.take 120)
      let actorCnt := counterOf (recentTitles.flatMap (fun t => (t.cast.take 5).map pyLower))
      let st := (mostCommon 2 actorCnt).foldl (fun st a =>
        addRow st ("actor:" ++ a, "Starring " ++ pyTitleCase a,
          idsFromTable db.actorsIdx a 600, 30)) st
      let kwCnt := counterOf (recentTitles.flatMap (fun t => (t.keywords.take 5).map pyLower))
      (mostCommon 2 kwCnt).foldl (fun st k =>
        addRow st ("kw:" ++ k, "Based on “" ++ k ++ "”",
          idsFromTable db.keywordsIdx k 600, 30)) st
    else st
  else st

def hiddenBlock (db : Db) (B : Nat) (st : PlanSt) : PlanSt :=
  let ok := okCont B st
  let st := tick st
  if ok then addRow st ("hidden_gems", "Hidden gems", hiddenGemsIds db, 30) else st

def freshBlock (db : Db) (B : Nat) (st : PlanSt) : PlanSt :=
  let ok := okCont B st
  let st := tick st
  if ok then
    addRow st ("fresh_for_you", "New for you", newMoviesIds db 450 ++ freshTvIds db, 30)
  else st

/-- Trending block: the language-filtered row is guarded, the final
"Trending" row is appended with no check at all. -/
def trendBlock (ctx : Ctx) (db : Db) (profile : ProfileRec) (B : Nat) (st : PlanSt) : PlanSt :=
  let trend := trendingIds ctx db
  let lang := profile.languagePreference
  let st :=
    if lang ≠ "" then
      let ok := okCont B st
      let st := tick st
      if ok then
        addRow st ("lang_trending", "Trending in " ++ pyUpper lang,
          langTrendIds db trend lang, 30)
      else st
    else st
  addRow st ("trending", "Trending", trend, 30)

/-- The full planning pass of `RecoHomeView.get`. -/
def planRows (ctx : Ctx) (db : Db) (profile : ProfileRec) (recent : List Nat)
    (B : Nat) : List PlannedRow :=
  (trendBlock ctx db profile B
    (freshBlock db B
      (hiddenBlock db B
        (actkwBlock db recent B
          (sncBlock db recent B
            (genresBlock db recent B
              (becauseBlock db recent B
                (forYouBlock db recent B
                  (coldBlock db profile recent B ⟨0, []⟩))))))))).rows

/-! ## The serving pipeline (`RecoHomeView.get`) -/

/-- The most recent 200 action title ids, falsy (zero) ids dropped. -/
def recentActionIds (db : Db) (pid : Nat) : List Nat :=
  (((actionsOfProfile db pid).map (·.titleId)).take 200).filter (· ≠ 0)

/-- The exclusion seed: `set(TitleAction...values_list("title_id")[:4000])`
— actions only, unordered query, capped at 4000. -/
def seenIds (db : Db) (pid : Nat) : List Nat :=
  dedupFirst (((db.actions.filter (·.profileId = pid)).map (·.titleId)).take 4000)

/-- A serialized response row; `itemIds` are the ids of its `items` list
(`TitleHomeSerializer` is a per-title projection preserving ids). -/
structure HomeRow where
  rowType : String
  title : String
  itemIds : List Nat
deriving Repr, DecidableEq

/-- `RecoHomeView.get` for an existing profile, from ranker load to the
final payload rows.  The response cache (`reco:home:p<id>`) is cache-aside
and transparent, so the fresh computation is the served value. -/
def recoHomeRows (ctx : Ctx) (db : Db) (profile : ProfileRec) (B : Nat) : List HomeRow :=
  let model := (getLatestRanker db).1
  let profVec := buildProfileVector db profile.id 80
  let recent := recentActionIds db profile.id
  let seen := seenIds db profile.id
  let planned := planRows ctx db profile recent B
  let rowsPlan := rankLoop ctx db profile profVec model planned seen
  let pickedTotal := dedupFirst (rowsPlan.flatMap (·.ids))
  rowsPlan.map (fun r =>
    ⟨r.rowType, r.title,
      r.ids.filter (fun i => decide (i ∈ pickedTotal) && (findTitle db i).isSome)⟩)

/-! ## Profile-creation seeding (`users/signals.py`) -/

/-- The enumerated action set of `TitleAction.ACTIONS` (`reco/models.py`)
and of `ActionInSerializer`. -/
def enumeratedActions : List String :=
  ["click", "outbound", "like", "dislike", "add_to_list", "not_interested", "search_click"]

/-- The fallback fill loop of `seed_profile_on_create`: walk the global
top-30 ids, append unseen ones, break as soon as 18 are collected. -/
def fillSeeds (seeds : List Nat) : List Nat → List Nat
  | [] => seeds
  | tid :: rest =>
    let seeds' := if tid ∈ seeds then seeds else seeds ++ [tid]
    if 18 ≤ seeds'.length then seeds' else fillSeeds seeds' rest

/-- The seed title ids chosen by `seed_profile_on_create`: up to 18 in the
profile's language, topped up from the global top 30 by popularity. -/
def seedIdsForProfile (db : Db) (profile : ProfileRec) : List Nat :=
  let lang := norm profile.languagePreference
  let seedIds := if lang ≠ "" then inLangIds db lang |>.take 18 else []
  if seedIds.length < 18 then
    fillSeeds seedIds (((db.titles.insertionSort popVaDesc).map (·.id)).take 30)
  else seedIds

/-- The `TitleAction` rows bulk-created by the `post_save` signal for a
freshly created profile. -/
def seedActions (db : Db) (profile : ProfileRec) (now : Int) : List ActionRec :=
  (seedIdsForProfile db profile).map (fun tid => ⟨profile.id, tid, "seed", now⟩)

/-! ## Snapshot fallback chain

`reco/models.py` declares `RecoHomeSnapshot` (profile, `algo_version`,
JSON payload, `expires_at`, `last_error`) and `users/signals.py` and
`build_home_snapshots.py` call `upsert_seed_snapshot` and
`build_home_payload_exact` from `reco.views`, but the snapshot branch of
the serving path itself is not part of the provided sources.  The serving
chain below is therefore modelled from the spec (§4.6, §6, §8). -/

/-- `RecoHomeSnapshot`: `payload` is `none` for the error-case `{}` write
and `some rows` for a `{"rows": [...]}` payload. -/
structure SnapshotRec where
  algoVersion : String
  payload : Option (List HomeRow)
  expiresAt : Int
  lastError : String
deriving Repr, DecidableEq

/-- The rows of a snapshot, `[]` when the payload is the error `{}`. -/
def snapRows (s : SnapshotRec) : List HomeRow := s.payload.getD []

/-- A served home payload: the rows plus the serving `mode`. -/
structure ServeResult where
  rows : List HomeRow
  mode : String
deriving Repr, DecidableEq

/-- Modelled from the spec: the snapshot-serving branch of
`RecoHomeView.get` (the code calling it exists only as callers/declaration
in `src`; `upsert_seed_snapshot` and the serving chain are missing).
Spec §4.6/§8: serve the live snapshot (`algo_version="home_v1"`) when it
is non-expired and non-empty with mode `"snapshot"`; else the seed
snapshot (`"home_v1_seed"`) when non-empty with mode `"seed_snapshot"`;
else an empty-row payload with mode `"no_snapshot_yet"` — a valid,
never-erroring terminal state. -/
def serveHome (live seed : Option SnapshotRec) (now : Int) : ServeResult :=
  match live with
  | some s =>
    if snapRows s ≠ [] ∧ now < s.expiresAt then ⟨snapRows s, "snapshot"⟩
    else
      match seed with
      | some s2 => if snapRows s2 ≠ [] then ⟨snapRows s2, "seed_snapshot"⟩
                   else ⟨[], "no_snapshot_yet"⟩
      | none => ⟨[], "no_snapshot_yet"⟩
  | none =>
    match seed with
    | some s2 => if snapRows s2 ≠ [] then ⟨snapRows s2, "seed_snapshot"⟩
                 else ⟨[], "no_snapshot_yet"⟩
    | none => ⟨[], "no_snapshot_yet"⟩

/-- "One score per candidate": every loaded model that returns scores
returns exactly one per feature row (the behaviour of real `predict`). -/
def modelOk (m : Option (List (List ℚ) → Option (List ℚ))) : Prop :=
  ∀ f, m = some f → ∀ M s, f M = some s → s.length = M.length

/-- The ranked rows of the pipeline before the display projection. -/
def rowsPlanOf (ctx : Ctx) (db : Db) (profile : ProfileRec) (B : Nat) : List RankedRow :=
  rankLoop ctx db profile (buildProfileVector db profile.id 80) (getLatestRanker db).1
    (planRows ctx db profile (recentActionIds db profile.id) B)
    (seenIds db profile.id)

/-- Row keys reachable for a profile with no interaction history: the four
cold-start rows, the language row, and the always-present supplemental
rows. -/
def nonPersonalizedKeys : List String :=
  ["popular", "top_rated", "new_movies", "tv_hits", "in_lang",
   "hidden_gems", "fresh_for_you", "lang_trending", "trending"]

/-! ## Spec-side comparison definitions -/

/-- The spec's fallback score formula, written as §4.4 step 5 states it. -/
def specFallbackFormula (cosine rating popularity languageMatch freshDays : ℚ) : ℚ :=
  0.55 * cosine + 0.25 * (rating / 10) + 0.20 * (popularity / 100)
    + 0.05 * languageMatch - 0.00002 * freshDays

/-- The exclusion seed as the spec's §4.5 describes it: the profile's
action titles plus its impression titles of a recent window (7 days),
capped at a maximum count — the code never consults impressions. -/
def specSeedExclusion (db : Db) (pid : Nat) (now : Int) : List Nat :=
  dedupFirst (((db.actions.filter (·.profileId = pid)).map (·.titleId) ++
    (db.impressions.filter (fun i =>
      i.profileId = pid && now - 604800 ≤ i.createdAt)).map (·.titleId)).take 4000)

/-- The amended description of `_build_profile_vector`: the unweighted
mean of the resolvable embedding vectors of the profile's 80 most recent
actions of any type, reverse-chronological; absent when no action has a
resolvable vector. -/
def amendedProfileVector (db : Db) (pid : Nat) : Option (List ℚ) :=
  let ids := ((actionsOfProfile db pid).map (·.titleId)).take 80
  let vecs := ids.filterMap (embFor db)
  if ids = [] ∨ vecs = [] then none else some (meanVec vecs)

/-- The feature schema stored by `train_ranker` (`FEATURES`): eleven
columns including `age_ok`, which the serving matrix does not have. -/
def trainSchema : List (String × Nat) :=
  [("cosine", 0), ("popularity", 1), ("vote_average", 2), ("log_vote_count", 3),
   ("freshness_days", 4), ("lang_match", 5), ("age_ok", 6), ("is_movie", 7),
   ("is_tv", 8), ("position", 9), ("row_hash", 10)]

/-- Replace the stored feature schema of every artifact, leaving model
blobs and every other table untouched. -/
def updSchema (db : Db) (s : List (String × Nat)) : Db :=
  { db with artifacts := db.artifacts.map (fun a => { a with featureSchema := s }) }

/-! ## Concrete evaluation inputs -/

/-- A context with trivial abstract functions, for concrete evaluation. -/
def ctx0 : Ctx := ⟨20000, 1000000, fun _ => 0, fun _ => 0, fun _ _ => 0⟩

/-- A loaded model scoring every candidate 0 (one score per row).  The
concrete databases carry it so kernel evaluation never has to force the
fallback scorer, whose rational divisions do not kernel-reduce. -/
def constScoreModel : List (List ℚ) → Option (List ℚ) :=
  fun M => some (M.map (fun _ => 0))

/-- Warm profile with full affinity data: exercises every planner block. -/
def dbWarm : Db :=
  { titles := [⟨1, "movie", "Alpha", "", some 19000, none, 8, 300, 50, "en", "drama", "", ["X"], ["k1"]⟩,
               ⟨2, "tv", "Beta", "", none, some 19100, 7, 100, 40, "en", "comedy", "", ["Y"], ["k2"]⟩]
    actions := [⟨1, 1, "click", 100⟩, ⟨1, 2, "click", 90⟩]
    impressions := []
    embeddings := []
    similars := []
    companies := [(1, "warner")]
    networks := [(1, "hbo")]
    countries := [(1, "us")]
    actorsIdx := []
    keywordsIdx := []
    artifacts := [⟨"lgbm_ranker_v1", some constScoreModel, trainSchema, 0⟩] }

def pWarm : ProfileRec := ⟨1, "en"⟩

/-- Cold profile 2 with a recent impression on title 7 and no actions. -/
def dbColdImp : Db :=
  { titles := [⟨7, "movie", "G7", "", some 19000, none, 8, 300, 90, "en", "drama", "", [], []⟩,
               ⟨8, "movie", "G8", "", some 19000, none, 7, 200, 80, "en", "drama", "", [], []⟩,
               ⟨9, "movie", "G9", "", some 19000, none, 6, 100, 70, "en", "drama", "", [], []⟩,
               ⟨10, "movie", "G10", "", some 19000, none, 5, 50, 60, "en", "drama", "", [], []⟩]
    actions := []
    impressions := [⟨2, 7, 999990⟩]
    embeddings := []
    similars := []
    companies := []
    networks := []
    countries := []
    actorsIdx := []
    keywordsIdx := []
    artifacts := [⟨"lgbm_ranker_v1", some constScoreModel, trainSchema, 0⟩] }

def pCold : ProfileRec := ⟨2, ""⟩

/-- Warm profile whose single outbound action is on a title with no
similarity edges; enough same-genre titles exist for a genre row. -/
def dbNoSim : Db :=
  { titles := [⟨1, "movie", "Seen", "", some 19000, none, 5, 10, 1, "en", "drama", "", [], []⟩,
               ⟨2, "movie", "A", "", some 19000, none, 8, 300, 90, "en", "drama", "", [], []⟩,
               ⟨3, "movie", "B", "", some 19000, none, 7, 200, 80, "en", "drama", "", [], []⟩,
               ⟨4, "movie", "C", "", some 19000, none, 6, 100, 70, "en", "drama", "", [], []⟩,
               ⟨5, "movie", "D", "", some 19000, none, 5, 50, 60, "en", "drama", "", [], []⟩]
    actions := [⟨1, 1, "outbound", 100⟩]
    impressions := []
    embeddings := []
    similars := []
    companies := []
    networks := []
    countries := []
    actorsIdx := []
    keywordsIdx := []
    artifacts := [⟨"lgbm_ranker_v1", some constScoreModel, trainSchema, 0⟩] }

/-- Two actions of different strength (outbound, dislike) whose titles
have unit-dimensional embeddings `[1]` and `[0]`. -/
def dbVec : Db :=
  { titles := [⟨1, "movie", "A", "", none, none, 0, 0, 0, "", "", "", [], []⟩,
               ⟨2, "movie", "B", "", none, none, 0, 0, 0, "", "", "", [], []⟩]
    actions := [⟨1, 1, "outbound", 100⟩, ⟨1, 2, "dislike", 90⟩]
    impressions := []
    embeddings := [⟨1, some [1], [1]⟩, ⟨2, some [0], [0]⟩]
    similars := []
    companies := []
    networks := []
    countries := []
    actorsIdx := []
    keywordsIdx := []
    artifacts := [] }

/-- A stored artifact whose declared schema is the eleven-column trained
one. -/
def dbSchema : Db :=
  { titles := []
    actions := []
    impressions := []
    embeddings := []
    similars := []
    companies := []
    networks := []
    countries := []
    actorsIdx := []
    keywordsIdx := []
    artifacts := [⟨"lgbm_ranker_v1", some (fun M => some (M.map (fun _ => 0))),
      trainSchema, 0⟩] }

/-- A live snapshot with a non-empty payload expiring at time 100. -/
def snapLive : SnapshotRec :=
  ⟨"home_v1", some [⟨"popular", "Popular right now", [1, 2, 3, 4]⟩], 100, ""⟩

/-! ## Supporting lemmas -/

theorem mem_dedupFirstAux {x : Nat} :
    ∀ (l seen : List Nat), x ∈ dedupFirstAux seen l ↔ x ∈ l ∧ x ∉ seen := by
  intro l
  induction l with
  | nil => simp [dedupFirstAux]
  | cons a as ih =>
    intro seen
    by_cases ha : a ∈ seen
    · simp only [dedupFirstAux, if_pos ha, ih, List.mem_cons]
      constructor
      · rintro ⟨h1, h2⟩; exact ⟨Or.inr h1, h2⟩
      · rintro ⟨h1 | h1, h2⟩
        · exact absurd (h1 ▸ ha) h2
        · exact ⟨h1, h2⟩
    · simp only [dedupFirstAux, if_neg ha, List.mem_cons, ih]
      constructor
      · rintro (rfl | ⟨h1, h2⟩)
        · exact ⟨Or.inl rfl, ha⟩
        · exact ⟨Or.inr h1, fun hx => h2 (Or.inr hx)⟩
      · rintro ⟨rfl | h1, h2⟩
        · exact Or.inl rfl
        · by_cases hxa : x = a
          · exact Or.inl hxa
          · exact Or.inr ⟨h1, by simp [hxa, h2]⟩

theorem nodup_dedupFirstAux : ∀ (l seen : List Nat), (dedupFirstAux seen l).Nodup := by
  intro l
  induction l with
  | nil => intro seen; simp [dedupFirstAux]
  | cons a as ih =>
    intro seen
    by_cases ha : a ∈ seen
    · simpa [dedupFirstAux, ha] using ih seen
    · simp only [dedupFirstAux, if_neg ha, List.nodup_cons]
      exact ⟨fun hmem => ((mem_dedupFirstAux ..).1 hmem).2 (by simp), ih _⟩

theorem mem_dedupFirst {x : Nat} {l : List Nat} : x ∈ dedupFirst l ↔ x ∈ l := by
  simp [dedupFirst, mem_dedupFirstAux]

theorem nodup_dedupFirst (l : List Nat) : (dedupFirst l).Nodup :=
  nodup_dedupFirstAux l []

theorem mem_filterCands {db : Db} {excl : List Nat} {x : Nat} :
    ∀ {l seen : List Nat}, x ∈ filterCands db excl seen l →
      x ∈ l ∧ x ∉ excl ∧ x ∉ seen ∧ (findTitle db x).isSome := by
  intro l
  induction l with
  | nil => intro seen h; simp [filterCands] at h
  | cons tid rest ih =>
    intro seen h
    simp only [filterCands] at h
    split_ifs at h with h1 h2
    · obtain ⟨hl, he, hs, hf⟩ := ih h
      exact ⟨List.mem_cons_of_mem _ hl, he, hs, hf⟩
    · obtain ⟨hl, he, hs, hf⟩ := ih h
      exact ⟨List.mem_cons_of_mem _ hl, he, hs, hf⟩
    · rcases List.mem_cons.1 h with rfl | hmem
      · refine ⟨List.mem_cons_self _ _, fun hc => h1 (Or.inl hc), fun hc => h1 (Or.inr hc), ?_⟩
        simpa [Option.isNone_iff_eq_none, Option.isSome_iff_ne_none] using h2
      · obtain ⟨hl, he, hs, hf⟩ := ih hmem
        exact ⟨List.mem_cons_of_mem _ hl, he, fun hc => hs (List.mem_cons_of_mem _ hc), hf⟩

theorem nodup_filterCands (db : Db) (excl : List Nat) :
    ∀ (l seen : List Nat), (filterCands db excl seen l).Nodup := by
  intro l
  induction l with
  | nil => intro seen; simp [filterCands]
  | cons tid rest ih =>
    intro seen
    simp only [filterCands]
    split_ifs with h1 h2
    · exact ih seen
    · exact ih seen
    · refine List.nodup_cons.2 ⟨fun hmem => ?_, ih _⟩
      exact (mem_filterCands hmem).2.2.1 (List.mem_cons_self _ _)

theorem filterCands_sublist (db : Db) (excl : List Nat) :
    ∀ (l seen : List Nat), (filterCands db excl seen l).Sublist l := by
  intro l
  induction l with
  | nil => intro seen; simp [filterCands]
  | cons tid rest ih =>
    intro seen
    simp only [filterCands]
    split_ifs with h1 h2
    · exact (ih seen).cons _
    · exact (ih seen).cons _
    · exact (ih _).cons₂ _

theorem zip_fst_sublist {α β : Type} :
    ∀ (l1 : List α) (l2 : List β), ((l1.zip l2).map Prod.fst).Sublist l1
  | [], _ => by simp
  | _ :: _, [] => by simp
  | a :: l1, b :: l2 => by simpa using (zip_fst_sublist l1 l2).cons₂ a

theorem rowScores_length {m : Option (List (List ℚ) → Option (List ℚ))}
    (hm : modelOk m) (X : List FeatureRow) : (rowScores m X).length = X.length := by
  match m with
  | none => simp [rowScores]
  | some f =>
    simp only [rowScores]
    cases hf : f (X.map featVec) with
    | none => simp
    | some s => simpa using hm f rfl _ s hf

theorem rankAndPick_mem {ctx : Ctx} {db : Db} {profile : ProfileRec}
    {pv : Option (List ℚ)} {m : Option (List (List ℚ) → Option (List ℚ))}
    {rt : String} {cands : List Nat} {k : Nat} {excl : List Nat} {x : Nat}
    (h : x ∈ rankAndPickIds ctx db profile pv m rt cands k excl) :
    x ∈ filterCands db excl [] cands := by
  simp only [rankAndPickIds] at h
  split_ifs at h with h1 h2
  · simp at h
  · simp at h
  · obtain ⟨⟨a, s⟩, hmem, rfl⟩ := List.mem_map.1 h
    have hs := List.mem_of_mem_take hmem
    have hz := (List.perm_insertionSort _ _).subset hs
    exact (List.of_mem_zip hz).1

/-- Top-k selection from the stable descending sort of `(id, score)` pairs
keeps ids without duplicates when the input ids had none. -/
theorem pickSorted_nodup {l : List Nat} (hu : l.Nodup) (scores : List ℚ) (k : Nat) :
    ((((l.zip scores).insertionSort (fun a b => b.2 ≤ a.2)).take k).map
      (fun p => p.1)).Nodup := by
  have hz : ((l.zip scores).map (fun p : Nat × ℚ => p.1)).Nodup := by
    have hsub := zip_fst_sublist l scores
    exact hsub.nodup hu
  have hp : (((l.zip scores).insertionSort (fun a b => b.2 ≤ a.2)).map
      (fun p : Nat × ℚ => p.1)).Nodup :=
    ((List.perm_insertionSort _ _).map _).nodup_iff.2 hz
  exact ((List.take_sublist _ _).map _).nodup hp

theorem pickSorted_length {l : List Nat} {scores : List ℚ}
    (hs : scores.length = l.length) (k : Nat) :
    ((((l.zip scores).insertionSort (fun a b => b.2 ≤ a.2)).take k).map
      (fun p => p.1)).length = min k l.length := by
  have hsort := (List.perm_insertionSort
    (fun a b : Nat × ℚ => b.2 ≤ a.2) (l.zip scores)).length_eq
  simp [List.length_take, hsort, List.length_zip, hs]

theorem rankAndPick_nodup (ctx : Ctx) (db : Db) (profile : ProfileRec)
    (pv : Option (List ℚ)) (m : Option (List (List ℚ) → Option (List ℚ)))
    (rt : String) (cands : List Nat) (k : Nat) (excl : List Nat) :
    (rankAndPickIds ctx db profile pv m rt cands k excl).Nodup := by
  simp only [rankAndPickIds]
  split_ifs with h1 h2
  · simp
  · simp
  · exact pickSorted_nodup (nodup_filterCands db excl cands []) _ _

theorem rankAndPick_length_le (ctx : Ctx) (db : Db) (profile : ProfileRec)
    (pv : Option (List ℚ)) (m : Option (List (List ℚ) → Option (List ℚ)))
    (rt : String) (cands : List Nat) (k : Nat) (excl : List Nat) :
    (rankAndPickIds ctx db profile pv m rt cands k excl).length ≤ k := by
  simp only [rankAndPickIds]
  split_ifs with h1 h2
  · simp
  · simp
  · simp [List.length_take]

theorem rankAndPick_length_ge (ctx : Ctx) (db : Db) (profile : ProfileRec)
    (pv : Option (List ℚ)) {m : Option (List (List ℚ) → Option (List ℚ))}
    (hm : modelOk m) (rt : String) (cands : List Nat) {k : Nat} (hk : 4 ≤ k)
    (excl : List Nat) (hne : rankAndPickIds ctx db profile pv m rt cands k excl ≠ []) :
    4 ≤ (rankAndPickIds ctx db profile pv m rt cands k excl).length := by
  simp only [rankAndPickIds] at hne ⊢
  split_ifs at hne ⊢ with h1 h2
  · simp at hne
  · simp at hne
  · rw [pickSorted_length (by rw [rowScores_length hm]; simp)]
    omega

theorem rankLoop_mem_not_excl {ctx : Ctx} {db : Db} {profile : ProfileRec}
    {pv : Option (List ℚ)} {m : Option (List (List ℚ) → Option (List ℚ))} :
    ∀ {planned : List PlannedRow} {excl : List Nat} {r : RankedRow},
      r ∈ rankLoop ctx db profile pv m planned excl →
      ∀ x ∈ r.ids, x ∉ excl ∧ (findTitle db x).isSome := by
  intro planned
  induction planned with
  | nil => intro excl r hr; simp [rankLoop] at hr
  | cons p rest ih =>
    intro excl r hr x hx
    obtain ⟨rt, label, cands, k⟩ := p
    simp only [rankLoop] at hr
    split_ifs at hr with hemp
    · exact ih hr x hx
    · rcases List.mem_cons.1 hr with rfl | hmem
      · have := mem_filterCands (rankAndPick_mem hx)
        exact ⟨this.2.1, this.2.2.2⟩
      · have := ih hmem x hx
        exact ⟨fun hc => this.1 (List.mem_append_left _ hc), this.2⟩

theorem rankLoop_nodup_ids {ctx : Ctx} {db : Db} {profile : ProfileRec}
    {pv : Option (List ℚ)} {m : Option (List (List ℚ) → Option (List ℚ))} :
    ∀ {planned : List PlannedRow} {excl : List Nat} {r : RankedRow},
      r ∈ rankLoop ctx db profile pv m planned excl → r.ids.Nodup := by
  intro planned
  induction planned with
  | nil => intro excl r hr; simp [rankLoop] at hr
  | cons p rest ih =>
    intro excl r hr
    obtain ⟨rt, label, cands, k⟩ := p
    simp only [rankLoop] at hr
    split_ifs at hr with hemp
    · exact ih hr
    · rcases List.mem_cons.1 hr with rfl | hmem
      · exact rankAndPick_nodup ..
      · exact ih hmem

theorem rankLoop_pairwise_disjoint (ctx : Ctx) (db : Db) (profile : ProfileRec)
    (pv : Option (List ℚ)) (m : Option (List (List ℚ) → Option (List ℚ))) :
    ∀ (planned : List PlannedRow) (excl : List Nat),
      (rankLoop ctx db profile pv m planned excl).Pairwise
        (fun r s => ∀ x ∈ r.ids, x ∉ s.ids) := by
  intro planned
  induction planned with
  | nil => intro excl; simp [rankLoop]
  | cons p rest ih =>
    intro excl
    obtain ⟨rt, label, cands, k⟩ := p
    simp only [rankLoop]
    split_ifs with hemp
    · exact ih excl
    · refine List.Pairwise.cons ?_ (ih _)
      intro s hs x hx hxs
      exact (rankLoop_mem_not_excl hs x hxs).1 (List.mem_append_right _ hx)

theorem rankLoop_from_planned {ctx : Ctx} {db : Db} {profile : ProfileRec}
    {pv : Option (List ℚ)} {m : Option (List (List ℚ) → Option (List ℚ))} :
    ∀ {planned : List PlannedRow} {excl : List Nat} {r : RankedRow},
      r ∈ rankLoop ctx db profile pv m planned excl →
      ∃ p ∈ planned, r.rowType = p.1 ∧ r.title = p.2.1 ∧ ∃ e,
        r.ids = rankAndPickIds ctx db profile pv m p.1 p.2.2.1 p.2.2.2 e ∧ r.ids ≠ [] := by
  intro planned
  induction planned with
  | nil => intro excl r hr; simp [rankLoop] at hr
  | cons p rest ih =>
    intro excl r hr
    obtain ⟨rt, label, cands, k⟩ := p
    simp only [rankLoop] at hr
    split_ifs at hr with hemp
    · obtain ⟨q, hq, h⟩ := ih hr
      exact ⟨q, List.mem_cons_of_mem _ hq, h⟩
    · rcases List.mem_cons.1 hr with rfl | hmem
      · exact ⟨(rt, label, cands, k), List.mem_cons_self _ _, rfl, rfl, excl, rfl, hemp⟩
      · obtain ⟨q, hq, h⟩ := ih hmem
        exact ⟨q, List.mem_cons_of_mem _ hq, h⟩

/-- The display step keeps every picked id: each is a real title id and a
member of `picked_total`, so the `display_by_id` filter is the identity. -/
theorem recoHomeRows_eq (ctx : Ctx) (db : Db) (profile : ProfileRec) (B : Nat) :
    recoHomeRows ctx db profile B =
      (rowsPlanOf ctx db profile B).map (fun r => ⟨r.rowType, r.title, r.ids⟩) := by
  have hshape : recoHomeRows ctx db profile B =
      (rowsPlanOf ctx db profile B).map (fun r =>
        ⟨r.rowType, r.title, r.ids.filter (fun i =>
          decide (i ∈ dedupFirst ((rowsPlanOf ctx db profile B).flatMap (·.ids)))
            && (findTitle db i).isSome)⟩) := rfl
  rw [hshape]
  refine List.map_congr_left ?_
  intro r hr
  have hall : ∀ i ∈ r.ids,
      (decide (i ∈ dedupFirst ((rowsPlanOf ctx db profile B).flatMap (·.ids)))
        && (findTitle db i).isSome) = true := by
    intro i hi
    have h1 : i ∈ dedupFirst ((rowsPlanOf ctx db profile B).flatMap (·.ids)) :=
      mem_dedupFirst.2 (List.mem_flatMap.2 ⟨r, hr, hi⟩)
    have h2 := (rankLoop_mem_not_excl hr i hi).2
    simp [h1, h2]
  rw [List.filter_eq_self.2 hall]

/-! ### Planner block lemmas -/

theorem foldl_addRow_rows {α : Type} (f : α → PlannedRow) :
    ∀ (l : List α) (st : PlanSt),
      (l.foldl (fun st x => addRow st (f x)) st).rows = st.rows ++ l.map f := by
  intro l
  induction l with
  | nil => intro st; simp
  | cons a as ih => intro st; rw [List.foldl_cons, ih]; simp [addRow]

theorem coldBlock_of_ne {db : Db} {profile : ProfileRec} {recent : List Nat}
    {B : Nat} {st : PlanSt} (h : recent ≠ []) :
    coldBlock db profile recent B st = st := by
  unfold coldBlock
  rw [if_neg h]

theorem coldBlock_len (db : Db) (profile : ProfileRec) (recent : List Nat)
    (B : Nat) (st : PlanSt) :
    (coldBlock db profile recent B st).rows.length ≤ st.rows.length + 5 := by
  simp only [coldBlock, addRow, tick]
  split_ifs <;> simp

theorem coldBlock_mem {db : Db} {profile : ProfileRec} {recent : List Nat}
    {B : Nat} {st : PlanSt} {p : PlannedRow}
    (hp : p ∈ (coldBlock db profile recent B st).rows) :
    p ∈ st.rows ∨ (p.1 ∈ (["popular", "top_rated", "new_movies", "tv_hits",
      "in_lang"] : List String) ∧ p.2.2.2 = 30) := by
  simp only [coldBlock, addRow, tick] at hp
  split_ifs at hp <;> aesop

theorem coldBlock_mono {db : Db} {profile : ProfileRec} {recent : List Nat}
    {B : Nat} {st : PlanSt} {p : PlannedRow} (hp : p ∈ st.rows) :
    p ∈ (coldBlock db profile recent B st).rows := by
  simp only [coldBlock, addRow, tick]
  split_ifs <;> simp [hp]

theorem forYouBlock_of_eq {db : Db} {B : Nat} {st : PlanSt} :
    forYouBlock db [] B st = st := rfl

theorem forYouBlock_len (db : Db) (recent : List Nat) (B : Nat) (st : PlanSt) :
    (forYouBlock db recent B st).rows.length ≤ st.rows.length + 1 := by
  simp only [forYouBlock, addRow, tick]
  split_ifs <;> simp

theorem forYouBlock_mem {db : Db} {recent : List Nat} {B : Nat} {st : PlanSt}
    {p : PlannedRow} (hp : p ∈ (forYouBlock db recent B st).rows) :
    p ∈ st.rows ∨ (p.1 = "for_you" ∧ p.2.2.2 = 30) := by
  simp only [forYouBlock, addRow, tick] at hp
  split_ifs at hp <;> aesop

theorem forYouBlock_mono {db : Db} {recent : List Nat} {B : Nat} {st : PlanSt}
    {p : PlannedRow} (hp : p ∈ st.rows) : p ∈ (forYouBlock db recent B st).rows := by
  simp only [forYouBlock, addRow, tick]
  split_ifs <;> simp [hp]

theorem becauseBlock_of_eq {db : Db} {B : Nat} {st : PlanSt} :
    becauseBlock db [] B st = st := rfl

theorem becauseBlock_rows (db : Db) (recent : List Nat) (B : Nat) (st : PlanSt) :
    (becauseBlock db recent B st).rows = st.rows ∨
      (becauseBlock db recent B st).rows =
        st.rows ++ ((dedupFirst recent).take 2).map (fun tid =>
          ("because:" ++ toString tid, "Because you watched " ++ seedName db tid,
            simIdsFor db tid 700, (30 : Nat))) := by
  simp only [becauseBlock, tick]
  split_ifs with h1 h2
  · rw [foldl_addRow_rows]
    exact Or.inr rfl
  · exact Or.inl rfl
  · exact Or.inl rfl

theorem becauseBlock_len (db : Db) (recent : List Nat) (B : Nat) (st : PlanSt) :
    (becauseBlock db recent B st).rows.length ≤ st.rows.length + 2 := by
  rcases becauseBlock_rows db recent B st with h | h <;> rw [h]
  · omega
  · have h2 : ((dedupFirst recent).take 2).length ≤ 2 := by
      simp
    simp only [List.length_append, List.length_map]
    omega

theorem becauseBlock_mem {db : Db} {recent : List Nat} {B : Nat} {st : PlanSt}
    {p : PlannedRow} (hp : p ∈ (becauseBlock db recent B st).rows) :
    p ∈ st.rows ∨ p.2.2.2 = 30 := by
  rcases becauseBlock_rows db recent B st with h | h <;> rw [h] at hp
  · exact Or.inl hp
  · rcases List.mem_append.1 hp with hp | hp
    · exact Or.inl hp
    · obtain ⟨tid, _, rfl⟩ := List.mem_map.1 hp
      exact Or.inr rfl

theorem becauseBlock_mono {db : Db} {recent : List Nat} {B : Nat} {st : PlanSt}
    {p : PlannedRow} (hp : p ∈ st.rows) : p ∈ (becauseBlock db recent B st).rows := by
  rcases becauseBlock_rows db recent B st with h | h <;> rw [h]
  · exact hp
  · exact List.mem_append_left _ hp

theorem genreLoop_len (db : Db) (B : Nat) :
    ∀ (gs : List String) (st : PlanSt),
      (genreLoop db B gs st).rows.length ≤ st.rows.length + gs.length := by
  intro gs
  induction gs with
  | nil => intro st; simp [genreLoop]
  | cons g gs ih =>
    intro st
    simp only [genreLoop, addRow, tick]
    split_ifs
    · have h := ih ⟨st.ticks + 1,
        st.rows ++ [("genre:" ++ g, "More " ++ pyTitleCase g, genreIds db g, 30)]⟩
      simp at h ⊢
      omega
    · simp

theorem genreLoop_mem {db : Db} {B : Nat} :
    ∀ {gs : List String} {st : PlanSt} {p : PlannedRow},
      p ∈ (genreLoop db B gs st).rows → p ∈ st.rows ∨ p.2.2.2 = 30 := by
  intro gs
  induction gs with
  | nil => intro st p hp; exact Or.inl hp
  | cons g gs ih =>
    intro st p hp
    simp only [genreLoop, addRow, tick] at hp
    split_ifs at hp
    · rcases ih hp with hmem | h30
      · simp at hmem
        rcases hmem with hmem | rfl
        · exact Or.inl hmem
        · exact Or.inr rfl
      · exact Or.inr h30
    · exact Or.inl hp

theorem genreLoop_mono {db : Db} {B : Nat} :
    ∀ {gs : List String} {st : PlanSt} {p : PlannedRow},
      p ∈ st.rows → p ∈ (genreLoop db B gs st).rows := by
  intro gs
  induction gs with
  | nil => intro st p hp; exact hp
  | cons g gs ih =>
    intro st p hp
    simp only [genreLoop, addRow, tick]
    split_ifs
    · exact ih (by simp [hp])
    · exact hp

theorem genresBlock_of_eq {db : Db} {B : Nat} {st : PlanSt} :
    genresBlock db [] B st = st := rfl

theorem genresBlock_len (db : Db) (recent : List Nat) (B : Nat) (st : PlanSt) :
    (genresBlock db recent B st).rows.length ≤ st.rows.length + 2 := by
  simp only [genresBlock, tick]
  split_ifs
  · have h := genreLoop_len db B ((topGenres db recent).take 2) ⟨st.ticks + 1, st.rows⟩
    have h2 : ((topGenres db recent).take 2).length ≤ 2 := by
      simp
    simp at h
    omega
  · simp
  · simp

theorem genresBlock_mem {db : Db} {recent : List Nat} {B : Nat} {st : PlanSt}
    {p : PlannedRow} (hp : p ∈ (genresBlock db recent B st).rows) :
    p ∈ st.rows ∨ p.2.2.2 = 30 := by
  simp only [genresBlock, tick] at hp
  split_ifs at hp
  · have h := genreLoop_mem hp
    simpa using h
  · exact Or.inl hp
  · exact Or.inl hp

theorem genresBlock_mono {db : Db} {recent : List Nat} {B : Nat} {st : PlanSt}
    {p : PlannedRow} (hp : p ∈ st.rows) : p ∈ (genresBlock db recent B st).rows := by
  simp only [genresBlock, tick]
  split_ifs
  · exact genreLoop_mono hp
  · exact hp
  · exact hp

theorem sncBlock_of_eq {db : Db} {B : Nat} {st : PlanSt} :
    sncBlock db [] B st = st := rfl

theorem sncStep_len (B : Nat) (vals : List String) (mk : String → PlannedRow)
    (st : PlanSt) : (sncStep B vals mk st).rows.length ≤ st.rows.length + 1 := by
  simp only [sncStep, addRow, tick]
  split_ifs <;> simp

theorem sncStep_mem {B : Nat} {vals : List String} {mk : String → PlannedRow}
    {st : PlanSt} {p : PlannedRow} (hp : p ∈ (sncStep B vals mk st).rows) :
    p ∈ st.rows ∨ ∃ v, p = mk v := by
  simp only [sncStep, addRow, tick] at hp
  split_ifs at hp <;> aesop

theorem sncStep_mono {B : Nat} {vals : List String} {mk : String → PlannedRow}
    {st : PlanSt} {p : PlannedRow} (hp : p ∈ st.rows) :
    p ∈ (sncStep B vals mk st).rows := by
  simp only [sncStep, addRow, tick]
  split_ifs <;> simp [hp]

theorem sncStep_len3 (B : Nat) (v1 v2 v3 : List String)
    (mk1 mk2 mk3 : String → PlannedRow) (st : PlanSt) :
    (sncStep B v3 mk3 (sncStep B v2 mk2 (sncStep B v1 mk1 st))).rows.length
      ≤ st.rows.length + 3 := by
  have a := sncStep_len B v1 mk1 st
  have b := sncStep_len B v2 mk2 (sncStep B v1 mk1 st)
  have c := sncStep_len B v3 mk3 (sncStep B v2 mk2 (sncStep B v1 mk1 st))
  omega

theorem sncBlock_len (db : Db) (recent : List Nat) (B : Nat) (st : PlanSt) :
    (sncBlock db recent B st).rows.length ≤ st.rows.length + 3 := by
  simp only [sncBlock, tick]
  split_ifs
  · exact sncStep_len3 B _ _ _ _ _ _ ⟨st.ticks + 1, st.rows⟩
  · simp
  · simp

theorem sncBlock_mem {db : Db} {recent : List Nat} {B : Nat} {st : PlanSt}
    {p : PlannedRow} (hp : p ∈ (sncBlock db recent B st).rows) :
    p ∈ st.rows ∨ p.2.2.2 = 30 := by
  simp only [sncBlock, tick] at hp
  split_ifs at hp
  · rcases sncStep_mem hp with h | ⟨v, rfl⟩
    · rcases sncStep_mem h with h' | ⟨v, rfl⟩
      · rcases sncStep_mem h' with h'' | ⟨v, rfl⟩
        · exact Or.inl h''
        · exact Or.inr rfl
      · exact Or.inr rfl
    · exact Or.inr rfl
  · exact Or.inl hp
  · exact Or.inl hp

theorem sncBlock_mono {db : Db} {recent : List Nat} {B : Nat} {st : PlanSt}
    {p : PlannedRow} (hp : p ∈ st.rows) : p ∈ (sncBlock db recent B st).rows := by
  simp only [sncBlock, tick]
  split_ifs
  · exact sncStep_mono (sncStep_mono (sncStep_mono hp))
  · exact hp
  · exact hp

theorem actkwBlock_of_eq {db : Db} {B : Nat} {st : PlanSt} :
    actkwBlock db [] B st = st := rfl

theorem actkwBlock_rows (db : Db) (recent : List Nat) (B : Nat) (st : PlanSt) :
    (actkwBlock db recent B st).rows = st.rows ∨ ∃ l1 l2 : List String,
      l1.length ≤ 2 ∧ l2.length ≤ 2 ∧
      (actkwBlock db recent B st).rows =
        (st.rows ++ l1.map (fun a => ("actor:" ++ a, "Starring " ++ pyTitleCase a,
            idsFromTable db.actorsIdx a 600, (30 : Nat))))
          ++ l2.map (fun k => ("kw:" ++ k, "Based on “" ++ k ++ "”",
            idsFromTable db.keywordsIdx k 600, (30 : Nat))) := by
  simp only [actkwBlock, tick]
  split_ifs with h1 h2
  · rw [foldl_addRow_rows, foldl_addRow_rows]
    refine Or.inr ⟨_, _, ?_, ?_, rfl⟩ <;> simp [mostCommon]
  · exact Or.inl rfl
  · exact Or.inl rfl

theorem actkwBlock_len (db : Db) (recent : List Nat) (B : Nat) (st : PlanSt) :
    (actkwBlock db recent B st).rows.length ≤ st.rows.length + 4 := by
  rcases actkwBlock_rows db recent B st with h | ⟨l1, l2, h1, h2, h⟩ <;> rw [h] <;> simp
  omega

theorem actkwBlock_mem {db : Db} {recent : List Nat} {B : Nat} {st : PlanSt}
    {p : PlannedRow} (hp : p ∈ (actkwBlock db recent B st).rows) :
    p ∈ st.rows ∨ p.2.2.2 = 30 := by
  rcases actkwBlock_rows db recent B st with h | ⟨l1, l2, _, _, h⟩ <;> rw [h] at hp
  · exact Or.inl hp
  · rcases List.mem_append.1 hp with hp | hp
    · rcases List.mem_append.1 hp with hp | hp
      · exact Or.inl hp
      · obtain ⟨a, _, rfl⟩ := List.mem_map.1 hp
        exact Or.inr rfl
    · obtain ⟨a, _, rfl⟩ := List.mem_map.1 hp
      exact Or.inr rfl

theorem actkwBlock_mono {db : Db} {recent : List Nat} {B : Nat} {st : PlanSt}
    {p : PlannedRow} (hp : p ∈ st.rows) : p ∈ (actkwBlock db recent B st).rows := by
  rcases actkwBlock_rows db recent B st with h | ⟨l1, l2, _, _, h⟩ <;> rw [h]
  · exact hp
  · exact List.mem_append_left _ (List.mem_append_left _ hp)

theorem hiddenBlock_len (db : Db) (B : Nat) (st : PlanSt) :
    (hiddenBlock db B st).rows.length ≤ st.rows.length + 1 := by
  simp only [hiddenBlock, addRow, tick]
  split_ifs <;> simp

theorem hiddenBlock_mem {db : Db} {B : Nat} {st : PlanSt} {p : PlannedRow}
    (hp : p ∈ (hiddenBlock db B st).rows) :
    p ∈ st.rows ∨ (p.1 = "hidden_gems" ∧ p.2.2.2 = 30) := by
  simp only [hiddenBlock, addRow, tick] at hp
  split_ifs at hp <;> aesop

theorem hiddenBlock_mono {db : Db} {B : Nat} {st : PlanSt} {p : PlannedRow}
    (hp : p ∈ st.rows) : p ∈ (hiddenBlock db B st).rows := by
  simp only [hiddenBlock, addRow, tick]
  split_ifs <;> simp [hp]

theorem freshBlock_len (db : Db) (B : Nat) (st : PlanSt) :
    (freshBlock db B st).rows.length ≤ st.rows.length + 1 := by
  simp only [freshBlock, addRow, tick]
  split_ifs <;> simp

theorem freshBlock_mem {db : Db} {B : Nat} {st : PlanSt} {p : PlannedRow}
    (hp : p ∈ (freshBlock db B st).rows) :
    p ∈ st.rows ∨ (p.1 = "fresh_for_you" ∧ p.2.2.2 = 30) := by
  simp only [freshBlock, addRow, tick] at hp
  split_ifs at hp <;> aesop

theorem freshBlock_mono {db : Db} {B : Nat} {st : PlanSt} {p : PlannedRow}
    (hp : p ∈ st.rows) : p ∈ (freshBlock db B st).rows := by
  simp only [freshBlock, addRow, tick]
  split_ifs <;> simp [hp]

theorem trendBlock_len (ctx : Ctx) (db : Db) (profile : ProfileRec) (B : Nat)
    (st : PlanSt) :
    (trendBlock ctx db profile B st).rows.length ≤ st.rows.length + 2 := by
  simp only [trendBlock, addRow, tick]
  split_ifs <;> simp

theorem trendBlock_len_cap (ctx : Ctx) (db : Db) (profile : ProfileRec) (B : Nat)
    (st : PlanSt) (hcap : MAX_PLANNED_ROWS ≤ st.rows.length) :
    (trendBlock ctx db profile B st).rows.length ≤ st.rows.length + 1 := by
  simp only [trendBlock, addRow, tick]
  split_ifs with h1 h2
  · simp only [okCont, Bool.and_eq_true, decide_eq_true_eq] at h2
    omega
  · simp
  · simp

theorem trendBlock_mem {ctx : Ctx} {db : Db} {profile : ProfileRec} {B : Nat}
    {st : PlanSt} {p : PlannedRow} (hp : p ∈ (trendBlock ctx db profile B st).rows) :
    p ∈ st.rows ∨ (p.1 ∈ (["lang_trending", "trending"] : List String) ∧ p.2.2.2 = 30) := by
  simp only [trendBlock, addRow, tick] at hp
  split_ifs at hp <;> aesop

theorem trendBlock_has_trending (ctx : Ctx) (db : Db) (profile : ProfileRec)
    (B : Nat) (st : PlanSt) :
    ∃ p ∈ (trendBlock ctx db profile B st).rows, p.1 = "trending" := by
  simp only [trendBlock, addRow, tick]
  split_ifs <;>
    exact ⟨("trending", "Trending", trendingIds ctx db, 30), by simp, rfl⟩

theorem trendBlock_mono {ctx : Ctx} {db : Db} {profile : ProfileRec} {B : Nat}
    {st : PlanSt} {p : PlannedRow} (hp : p ∈ st.rows) :
    p ∈ (trendBlock ctx db profile B st).rows := by
  simp only [trendBlock, addRow, tick]
  split_ifs <;> simp [hp]

/-! ### Planner composition lemmas -/

/-- Every planned row asks for a target size of 30. -/
theorem planRows_k30 (ctx : Ctx) (db : Db) (profile : ProfileRec)
    (recent : List Nat) (B : Nat) :
    ∀ p ∈ planRows ctx db profile recent B, p.2.2.2 = 30 := by
  intro p hp
  unfold planRows at hp
  rcases trendBlock_mem hp with hp | ⟨_, h⟩
  on_goal 2 => exact h
  rcases freshBlock_mem hp with hp | ⟨_, h⟩
  on_goal 2 => exact h
  rcases hiddenBlock_mem hp with hp | ⟨_, h⟩
  on_goal 2 => exact h
  rcases actkwBlock_mem hp with hp | h
  on_goal 2 => exact h
  rcases sncBlock_mem hp with hp | h
  on_goal 2 => exact h
  rcases genresBlock_mem hp with hp | h
  on_goal 2 => exact h
  rcases becauseBlock_mem hp with hp | h
  on_goal 2 => exact h
  rcases forYouBlock_mem hp with hp | ⟨_, h⟩
  on_goal 2 => exact h
  rcases coldBlock_mem hp with hp | ⟨_, h⟩
  on_goal 2 => exact h
  simp at hp

/-- The plan never exceeds 15 rows (one more than the nominal cap, because
the final trending row is appended without a check). -/
theorem planRows_length_le (ctx : Ctx) (db : Db) (profile : ProfileRec)
    (recent : List Nat) (B : Nat) :
    (planRows ctx db profile recent B).length ≤ 15 := by
  unfold planRows
  set s1 := coldBlock db profile recent B ⟨0, []⟩ with hs1
  set s2 := forYouBlock db recent B s1 with hs2
  set s3 := becauseBlock db recent B s2 with hs3
  set s4 := genresBlock db recent B s3 with hs4
  set s5 := sncBlock db recent B s4 with hs5
  set s6 := actkwBlock db recent B s5 with hs6
  set s7 := hiddenBlock db B s6 with hs7
  set s8 := freshBlock db B s7 with hs8
  have h6 : s6.rows.length ≤ 12 := by
    by_cases hr : recent = []
    · have e : s6 = s1 := by
        rw [hs6, hs5, hs4, hs3, hs2, hr, forYouBlock_of_eq, becauseBlock_of_eq,
          genresBlock_of_eq, sncBlock_of_eq, actkwBlock_of_eq]
      have h1 := coldBlock_len db profile recent B ⟨0, []⟩
      rw [← hs1] at h1
      simp at h1
      rw [e]
      omega
    · have e1 : s1 = ⟨0, []⟩ := by rw [hs1, coldBlock_of_ne hr]
      have h2 := forYouBlock_len db recent B s1
      have h3 := becauseBlock_len db recent B s2
      have h4 := genresBlock_len db recent B s3
      have h5 := sncBlock_len db recent B s4
      have h6 := actkwBlock_len db recent B s5
      rw [← hs2] at h2
      rw [← hs3] at h3
      rw [← hs4] at h4
      rw [← hs5] at h5
      rw [← hs6] at h6
      have hl1 : s1.rows.length = 0 := by rw [e1]; rfl
      omega
  have h7 : s7.rows.length ≤ 13 := by
    have h := hiddenBlock_len db B s6
    rw [← hs7] at h
    omega
  have h8 : s8.rows.length ≤ 14 := by
    have h := freshBlock_len db B s7
    rw [← hs8] at h
    omega
  by_cases hc : s8.rows.length ≤ 13
  · have h := trendBlock_len ctx db profile B s8
    omega
  · have hge : MAX_PLANNED_ROWS ≤ s8.rows.length := by
      simp only [MAX_PLANNED_ROWS]
      omega
    have h := trendBlock_len_cap ctx db profile B s8 hge
    omega

theorem planRows_cold_keys (ctx : Ctx) (db : Db) (profile : ProfileRec)
    (B : Nat) : ∀ p ∈ planRows ctx db profile [] B, p.1 ∈ nonPersonalizedKeys := by
  intro p hp
  unfold planRows at hp
  rw [forYouBlock_of_eq, becauseBlock_of_eq, genresBlock_of_eq, sncBlock_of_eq,
    actkwBlock_of_eq] at hp
  rcases trendBlock_mem hp with hp | ⟨h, _⟩
  on_goal 2 => simp only [nonPersonalizedKeys]; simp at h ⊢; tauto
  rcases freshBlock_mem hp with hp | ⟨h, _⟩
  on_goal 2 => simp [nonPersonalizedKeys, h]
  rcases hiddenBlock_mem hp with hp | ⟨h, _⟩
  on_goal 2 => simp [nonPersonalizedKeys, h]
  rcases coldBlock_mem hp with hp | ⟨h, _⟩
  on_goal 2 => simp only [nonPersonalizedKeys]; simp at h ⊢; tauto
  simp at hp

/-- With at least one recent action and at least two clock checks left,
the plan contains the "Because you watched" row of the most recent
distinct action title. -/
theorem planRows_because (ctx : Ctx) (db : Db) (profile : ProfileRec)
    (tid : Nat) (rest : List Nat) {B : Nat} (hB : 2 ≤ B) :
    ∃ p ∈ planRows ctx db profile (tid :: rest) B,
      p.1 = "because:" ++ toString tid ∧
      p.2.1 = "Because you watched " ++ seedName db tid := by
  have hB0 : (0 : Nat) < B := by omega
  have hB1 : (1 : Nat) < B := by omega
  unfold planRows
  rw [coldBlock_of_ne (by simp)]
  have e2 : forYouBlock db (tid :: rest) B ⟨0, []⟩ =
      ⟨1, [("for_you", "For you", simIdsForSeeds db ((tid :: rest).take 6) 800, 30)]⟩ := by
    simp [forYouBlock, okCont, addRow, tick, MAX_PLANNED_ROWS, hB0]
  rw [e2]
  have hmem : ("because:" ++ toString tid,
      "Because you watched " ++ seedName db tid, simIdsFor db tid 700, (30 : Nat)) ∈
      (becauseBlock db (tid :: rest) B
        ⟨1, [("for_you", "For you", simIdsForSeeds db ((tid :: rest).take 6) 800, 30)]⟩).rows := by
    simp only [becauseBlock, tick]
    rw [if_pos (by simp), if_pos (by simp [okCont, MAX_PLANNED_ROWS, hB1])]
    rw [foldl_addRow_rows]
    refine List.mem_append_right _ ?_
    refine List.mem_map.2 ⟨tid, ?_, rfl⟩
    have hd : dedupFirst (tid :: rest) = tid :: dedupFirstAux [tid] rest := by
      simp [dedupFirst, dedupFirstAux]
    rw [hd]
    simp
  exact ⟨("because:" ++ toString tid, "Because you watched " ++ seedName db tid,
      simIdsFor db tid 700, 30),
    trendBlock_mono (freshBlock_mono (hiddenBlock_mono (actkwBlock_mono
      (sncBlock_mono (genresBlock_mono hmem))))), rfl, rfl⟩

/-! ## Claim theorems -/

/-- C1: for every serve request for an existing profile, the snapshot
fallback chain applies: the live snapshot's payload is served with mode
`"snapshot"` when it is non-empty and non-expired; otherwise a non-empty
seed snapshot is served with mode `"seed_snapshot"`; otherwise the empty
payload with mode `"no_snapshot_yet"` — and the request always succeeds
(the serve function is total and its mode is always one of the three).
The serving branch is modelled from the spec (§4.6/§8), since only its
callers and the `RecoHomeSnapshot` declaration are in the sources. -/
theorem C1_snapshot_fallback_chain (live seed : Option SnapshotRec) (now : Int) :
    (∀ s, live = some s → snapRows s ≠ [] → now < s.expiresAt →
      serveHome live seed now = ⟨snapRows s, "snapshot"⟩) ∧
    (∀ s2, (∀ s, live = some s → snapRows s = [] ∨ s.expiresAt ≤ now) →
      seed = some s2 → snapRows s2 ≠ [] →
      serveHome live seed now = ⟨snapRows s2, "seed_snapshot"⟩) ∧
    ((∀ s, live = some s → snapRows s = [] ∨ s.expiresAt ≤ now) →
      (∀ s2, seed = some s2 → snapRows s2 = []) →
      serveHome live seed now = ⟨[], "no_snapshot_yet"⟩) ∧
    (serveHome live seed now).mode ∈
      (["snapshot", "seed_snapshot", "no_snapshot_yet"] : List String) := by
  refine ⟨?_, ?_, ?_, ?_⟩
  · rintro s rfl h1 h2
    simp [serveHome, h1, h2]
  · rintro s2 hlive rfl h2
    cases live with
    | none => simp [serveHome, h2]
    | some s =>
      rcases hlive s rfl with h | h
      · simp [serveHome, h, h2]
      · have h3 : ¬ now < s.expiresAt := not_lt.2 h
        simp [serveHome, h3, h2]
  · intro hlive hseed
    cases live with
    | none =>
      cases seed with
      | none => simp [serveHome]
      | some s2 => simp [serveHome, hseed s2 rfl]
    | some s =>
      have hl := hlive s rfl
      cases seed with
      | none =>
        rcases hl with h | h
        · simp [serveHome, h]
        · have h3 : ¬ now < s.expiresAt := not_lt.2 h
          simp [serveHome, h3]
      | some s2 =>
        have h2 := hseed s2 rfl
        rcases hl with h | h
        · simp [serveHome, h, h2]
        · have h3 : ¬ now < s.expiresAt := not_lt.2 h
          simp [serveHome, h3, h2]
  · cases live with
    | none =>
      cases seed with
      | none => simp [serveHome]
      | some s2 => simp only [serveHome]; split_ifs <;> simp
    | some s =>
      cases seed with
      | none => simp only [serveHome]; split_ifs <;> simp
      | some s2 => simp only [serveHome]; split_ifs <;> simp

theorem C1_witness :
    snapRows snapLive ≠ [] ∧ (5 : Int) < snapLive.expiresAt ∧
    serveHome (some snapLive) none 5 = ⟨snapRows snapLive, "snapshot"⟩ :=
  ⟨by decide, by decide,
    (C1_snapshot_fallback_chain (some snapLive) none 5).1 snapLive rfl
      (by decide) (by decide)⟩

/-- C4 (counterexample): with every affinity source populated and the
deadline never hit, the plan of a warm profile reaches 15 rows — one more
than `MAX_PLANNED_ROWS` — because checks happen per block (the
actors/keywords block appends 4 rows after one check) and the final
trending row is appended without any check.  This refutes "the number of
planned rows never exceeds the cap". -/
theorem C4_counterexample :
    MAX_PLANNED_ROWS <
      (planRows ctx0 dbWarm pWarm (recentActionIds dbWarm 1) 1000).length := by
  decide

/-- C4 (amended): the planner checks the clock and the 14-row cap before
each candidate *block* (a block may append up to 4 rows after one check)
and appends the final trending row unconditionally; consequently the plan
is bounded by 15 rows, not 14, and always contains the trending row. -/
theorem C4_plan_bound (ctx : Ctx) (db : Db) (profile : ProfileRec)
    (recent : List Nat) (B : Nat) :
    (planRows ctx db profile recent B).length ≤ 15 ∧
      ∃ p ∈ planRows ctx db profile recent B, p.1 = "trending" :=
  ⟨planRows_length_le ctx db profile recent B, by
    unfold planRows
    exact trendBlock_has_trending ctx db profile B _⟩

/-- C6: when no model is loaded, or the loaded model's `predict` raises,
every candidate's score is the deterministic heuristic
`0.55*cosine + 0.25*(rating/10) + 0.20*(popularity/100) +
0.05*languageMatch − 0.00002*freshnessDays`; determinism on identical
inputs is definitional in this pure embedding (the scorer is a function
of the feature row alone). -/
theorem C6_fallback_scorer :
    (∀ X : List FeatureRow, rowScores none X = X.map fallbackScore) ∧
    (∀ (m : List (List ℚ) → Option (List ℚ)) (X : List FeatureRow),
      m (X.map featVec) = none → rowScores (some m) X = X.map fallbackScore) ∧
    (∀ f : FeatureRow, fallbackScore f =
      specFallbackFormula f.cosine f.voteAverage f.popularity f.langMatch f.freshness) := by
  refine ⟨fun X => rfl, fun m X h => by simp [rowScores, h], fun f => ?_⟩
  unfold fallbackScore specFallbackFormula
  norm_num

theorem C6_witness :
    ((fun _ : List (List ℚ) => (none : Option (List ℚ)))
        ([zeroFeatureRow].map featVec) = none) ∧
    rowScores (some (fun _ => none)) [zeroFeatureRow] =
      [zeroFeatureRow].map fallbackScore :=
  ⟨rfl, C6_fallback_scorer.2.1 (fun _ => none) [zeroFeatureRow] rfl⟩

theorem fillSeeds_len_ge : ∀ (l seeds : List Nat),
    seeds.length ≤ (fillSeeds seeds l).length := by
  intro l
  induction l with
  | nil => intro seeds; simp [fillSeeds]
  | cons tid rest ih =>
    intro seeds
    simp only [fillSeeds]
    split_ifs with h1 h2 h3
    · exact le_refl _
    · exact ih seeds
    · simp
    · have h5 := ih (seeds ++ [tid])
      simp only [List.length_append, List.length_cons, List.length_nil] at h5
      omega

theorem fillSeeds_le : ∀ (l seeds : List Nat), seeds.length < 18 →
    (fillSeeds seeds l).length ≤ 18 := by
  intro l
  induction l with
  | nil => intro seeds h; simp only [fillSeeds]; omega
  | cons tid rest ih =>
    intro seeds h
    simp only [fillSeeds]
    split_ifs with h1 h2 h3
    · omega
    · exact ih seeds h
    · simp only [List.length_append, List.length_cons, List.length_nil] at h3 ⊢
      omega
    · refine ih _ ?_
      simp only [List.length_append, List.length_cons, List.length_nil] at h3 ⊢
      omega

theorem fillSeeds_pos : ∀ (seeds l : List Nat), l ≠ [] →
    0 < (fillSeeds seeds l).length := by
  intro seeds l h
  match l with
  | tid :: rest =>
    simp only [fillSeeds]
    split_ifs with h1 h2 h3
    · omega
    · have h4 : 0 < seeds.length := List.length_pos.2 (List.ne_nil_of_mem h1)
      have h5 := fillSeeds_len_ge rest seeds
      omega
    · simp only [List.length_append, List.length_cons, List.length_nil]
      omega
    · have h5 := fillSeeds_len_ge rest (seeds ++ [tid])
      simp only [List.length_append, List.length_cons, List.length_nil] at h5
      omega

/-- C10: for every newly created profile over a non-empty catalog, the
`post_save` signal bulk-creates between 1 and 18 `TitleAction` rows whose
`action` is `"seed"` — a value outside the enumerated action set — so the
fresh profile has non-empty interaction history before its first feed
request. -/
theorem C10_seed_actions (db : Db) (profile : ProfileRec) (now : Int)
    (h : db.titles ≠ []) :
    seedActions db profile now ≠ [] ∧
    (seedActions db profile now).length ≤ 18 ∧
    (∀ a ∈ seedActions db profile now,
      a.action = "seed" ∧ a.action ∉ enumeratedActions) := by
  have hex : ((db.titles.insertionSort popVaDesc).map (·.id)).take 30 ≠ [] := by
    have h0 : 0 < db.titles.length := List.length_pos.2 h
    have hl : 0 < (((db.titles.insertionSort popVaDesc).map (·.id)).take 30).length := by
      simp [List.length_take, (List.perm_insertionSort popVaDesc db.titles).length_eq]
      omega
    exact List.ne_nil_of_length_pos hl
  have hlen : 0 < (seedIdsForProfile db profile).length ∧
      (seedIdsForProfile db profile).length ≤ 18 := by
    simp only [seedIdsForProfile]
    split_ifs with h1 h2 h3
    · exact ⟨fillSeeds_pos _ _ hex, fillSeeds_le _ _ h2⟩
    · refine ⟨?_, by simp⟩
      simp only [not_lt] at h2
      omega
    · exact ⟨fillSeeds_pos _ _ hex, fillSeeds_le _ _ h3⟩
    · simp only [not_lt, List.length_nil] at h3
      omega
  refine ⟨?_, ?_, ?_⟩
  · have hl : (seedActions db profile now).length =
        (seedIdsForProfile db profile).length := by simp [seedActions]
    intro hc
    rw [hc] at hl
    simp at hl
    omega
  · simp only [seedActions, List.length_map]
    exact hlen.2
  · intro a ha
    obtain ⟨tid, _, rfl⟩ := List.mem_map.1 ha
    have hne : ("seed" : String) ∉ enumeratedActions := by decide
    exact ⟨rfl, hne⟩

theorem C10_witness :
    dbVec.titles ≠ [] ∧ seedActions dbVec pCold 5 ≠ [] ∧
      (seedActions dbVec pCold 5).length ≤ 18 :=
  ⟨by decide, (C10_seed_actions dbVec pCold 5 (by decide)).1,
    (C10_seed_actions dbVec pCold 5 (by decide)).2.1⟩

/-- C2: in every generated home response no item id appears in more than
one row — each row is duplicate-free and distinct rows are disjoint
(duplicates are filtered within a call, order-preservingly, and each
row's picks join the exclusion set before the next row is ranked; the
third conjunct states the in-call filter's sublist/no-duplicate shape). -/
theorem C2_no_duplicate_items (ctx : Ctx) (db : Db) (profile : ProfileRec) (B : Nat) :
    ((recoHomeRows ctx db profile B).Pairwise
        (fun r s => ∀ x ∈ r.itemIds, x ∉ s.itemIds) ∧
      ∀ r ∈ recoHomeRows ctx db profile B, r.itemIds.Nodup) ∧
    (∀ excl seen cands : List Nat,
      (filterCands db excl seen cands).Sublist cands ∧
        (filterCands db excl seen cands).Nodup) := by
  refine ⟨⟨?_, ?_⟩, fun excl seen cands =>
    ⟨filterCands_sublist db excl cands seen, nodup_filterCands db excl cands seen⟩⟩
  · rw [recoHomeRows_eq]
    refine List.Pairwise.map _ ?_ (rankLoop_pairwise_disjoint ctx db profile _ _ _ _)
    intro r s hdisj x hx
    exact hdisj x hx
  · rw [recoHomeRows_eq]
    intro r hr
    obtain ⟨r0, hr0, rfl⟩ := List.mem_map.1 hr
    exact rankLoop_nodup_ids hr0

theorem C2_witness :
    (HomeRow.mk "genre:drama" "More Drama" [2, 3, 4, 5]).itemIds.Nodup :=
  (C2_no_duplicate_items ctx0 dbNoSim pWarm 1000).1.2 _ (by decide)

/-- C3: every row of a generated response has at most its requested
target size (the planner requests 30 everywhere) and at least 4 items;
a row whose surviving candidates number fewer than 4 is returned empty
by rank-and-pick and omitted from the response.  The hypothesis is the
model contract assumed by the claim ("one score per candidate"). -/
theorem C3_row_size_bounds (ctx : Ctx) (db : Db) (profile : ProfileRec) (B : Nat)
    (hm : modelOk (getLatestRanker db).1) :
    ∀ r ∈ recoHomeRows ctx db profile B,
      4 ≤ r.itemIds.length ∧ r.itemIds.length ≤ 30 := by
  rw [recoHomeRows_eq]
  intro r hr
  obtain ⟨r0, hr0, rfl⟩ := List.mem_map.1 hr
  obtain ⟨p, hp, _, _, e, hids, hne⟩ := rankLoop_from_planned hr0
  have hk := planRows_k30 ctx db profile (recentActionIds db profile.id) B p hp
  constructor
  · show 4 ≤ r0.ids.length
    rw [hids]
    exact rankAndPick_length_ge ctx db profile _ hm p.1 p.2.2.1 (by omega) e (hids ▸ hne)
  · show r0.ids.length ≤ 30
    rw [hids]
    have hle := rankAndPick_length_le ctx db profile
      (buildProfileVector db profile.id 80) (getLatestRanker db).1 p.1 p.2.2.1 p.2.2.2 e
    omega

theorem C3_witness :
    modelOk (getLatestRanker dbNoSim).1 ∧
    (4 ≤ (HomeRow.mk "genre:drama" "More Drama" [2, 3, 4, 5]).itemIds.length ∧
      (HomeRow.mk "genre:drama" "More Drama" [2, 3, 4, 5]).itemIds.length ≤ 30) := by
  have hm : modelOk (getLatestRanker dbNoSim).1 := by
    intro f hf M s hs
    rw [show (getLatestRanker dbNoSim).1 = some constScoreModel from rfl] at hf
    injection hf with h2
    rw [← h2] at hs
    simp only [constScoreModel, Option.some.injEq] at hs
    rw [← hs]
    simp
  exact ⟨hm, C3_row_size_bounds ctx0 dbNoSim pWarm 1000 hm _ (by decide)⟩

/-- C5 (counterexample): the exclusion seed is built from the profile's
actions only — impressions are never consulted.  Profile 2 of
`dbColdImp` has a same-week impression on title 7 (so 7 is in the seed
set the claim describes), yet 7 is served in a response row. -/
theorem C5_counterexample :
    7 ∈ specSeedExclusion dbColdImp 2 ctx0.nowTs ∧
    (recoHomeRows ctx0 dbColdImp pCold 1000).any
      (fun r => decide (7 ∈ r.itemIds)) = true :=
  ⟨by decide, by decide⟩

/-- C5 (amended): the exclusion set is seeded from the profile's actions
only (first 4000, no impressions, no recency window), and every item of
that seed set is absent from every returned row. -/
theorem C5_exclusion_amended (ctx : Ctx) (db : Db) (profile : ProfileRec)
    (B : Nat) (tid : Nat) (h : tid ∈ seenIds db profile.id) :
    ∀ r ∈ recoHomeRows ctx db profile B, tid ∉ r.itemIds := by
  rw [recoHomeRows_eq]
  intro r hr htid
  obtain ⟨r0, hr0, rfl⟩ := List.mem_map.1 hr
  exact (rankLoop_mem_not_excl hr0 tid htid).1 h

theorem C5_witness :
    1 ∈ seenIds dbNoSim 1 ∧
      1 ∉ (HomeRow.mk "genre:drama" "More Drama" [2, 3, 4, 5]).itemIds :=
  ⟨by decide,
    C5_exclusion_amended ctx0 dbNoSim pWarm 1000 1 (by decide) _ (by decide)⟩

/-- C7 (counterexample): `_build_profile_vector` neither restricts to
strong actions nor weights by strength.  Profile 1 of `dbVec` has an
outbound action on a title with vector `[1]` and a dislike on one with
vector `[0]`: the function returns the plain mean `[1/2]`, while the
spec's strength-weighted strong-action mean (implemented in
`train_ranker._profile_vec`) yields `[1]`. -/
theorem C7_counterexample :
    buildProfileVector dbVec 1 80 = some [1/2] ∧
    trainProfileVec dbVec 1 30 = some [1] ∧ ((1 : ℚ)/2) ≠ 1 := by
  refine ⟨?_, ?_, by norm_num⟩
  · have h1 : ((actionsOfProfile dbVec 1).map (·.titleId)).take 80 = [1, 2] := by
      decide
    have h2 : ([1, 2] : List Nat).filterMap (embFor dbVec) = [[(1 : ℚ)], [0]] := by
      decide
    simp only [buildProfileVector, h1, h2]
    norm_num [meanVec, addVec]
    exact ⟨by simp, by simp⟩
  · have h1 : ((dbVec.actions.filter (fun a =>
        a.profileId = 1 && a.action ∈ strongActionNames)).insertionSort
          (fun a b => b.createdAt ≤ a.createdAt)).take 30 =
        [⟨1, 1, "outbound", 100⟩] := by decide
    have h2 : embJsonFor dbVec 1 = some [1] := by decide
    simp only [trainProfileVec, h1, h2, List.filterMap, Option.map]
    norm_num [actionWeight]

/-- C7 (amended): `_build_profile_vector(profile_id, 80)` takes the
profile's 80 most recent actions of any type, reverse-chronological, and
returns the unweighted mean of their resolvable embedding vectors;
it is absent exactly when no action has a resolvable vector. -/
theorem C7_profile_vector_amended (db : Db) (pid : Nat) :
    buildProfileVector db pid 80 = amendedProfileVector db pid := by
  simp only [buildProfileVector, amendedProfileVector]
  split_ifs with h1 h2 h3 h4 h5 <;> first | rfl | tauto

/-- C9 (counterexample): a profile with a strong (outbound) action whose
title has no similarity edges receives a response with no
similarity-derived row at all ("for_you" or "because:…" keys): the
similarity rows are planned but dropped for lack of candidates. -/
theorem C9_counterexample :
    dbNoSim.actions.any (fun a => a.profileId = 1 && a.action = "outbound") = true ∧
    (recoHomeRows ctx0 dbNoSim pWarm 1000).all
      (fun r => !(r.rowType = "for_you" || strStarts "because:" r.rowType)) = true :=
  ⟨by decide, by decide⟩

/-- C9 (amended): a profile with zero interaction history receives only
non-personalized rows (the four cold-start categories plus the
always-present supplemental rows); a profile with at least one action has
a similarity row "Because you watched X" planned for its most recent
action title whenever at least two budget checks remain — the row
reaches the response only if at least 4 of its candidates survive. -/
theorem C9_cold_warm_amended (ctx : Ctx) (db : Db) (profile : ProfileRec) (B : Nat) :
    (recentActionIds db profile.id = [] →
      ∀ r ∈ recoHomeRows ctx db profile B, r.rowType ∈ nonPersonalizedKeys) ∧
    (∀ tid rest, recentActionIds db profile.id = tid :: rest → 2 ≤ B →
      ∃ p ∈ planRows ctx db profile (recentActionIds db profile.id) B,
        p.1 = "because:" ++ toString tid ∧
        p.2.1 = "Because you watched " ++ seedName db tid) := by
  constructor
  · intro h r hr
    rw [recoHomeRows_eq] at hr
    obtain ⟨r0, hr0, rfl⟩ := List.mem_map.1 hr
    obtain ⟨p, hp, hrt, _⟩ := rankLoop_from_planned hr0
    rw [h] at hp
    show r0.rowType ∈ nonPersonalizedKeys
    rw [hrt]
    exact planRows_cold_keys ctx db profile B p hp
  · intro tid rest h hB
    rw [h]
    exact planRows_because ctx db profile tid rest hB

theorem orderedInsert_schemaMap (s : List (String × Nat)) (a : ArtifactRec) :
    ∀ l : List ArtifactRec,
      (l.map (fun x => { x with featureSchema := s })).orderedInsert
          (fun x y => y.trainedAt ≤ x.trainedAt) { a with featureSchema := s } =
        (l.orderedInsert (fun x y => y.trainedAt ≤ x.trainedAt) a).map
          (fun x => { x with featureSchema := s }) := by
  intro l
  induction l with
  | nil => rfl
  | cons b bs ih =>
    simp only [List.map_cons, List.orderedInsert]
    split_ifs with h1
    · rfl
    · simp only [List.map_cons, ih]

theorem insertionSort_schemaMap (s : List (String × Nat)) :
    ∀ l : List ArtifactRec,
      (l.map (fun x => { x with featureSchema := s })).insertionSort
          (fun x y => y.trainedAt ≤ x.trainedAt) =
        (l.insertionSort (fun x y => y.trainedAt ≤ x.trainedAt)).map
          (fun x => { x with featureSchema := s }) := by
  intro l
  induction l with
  | nil => rfl
  | cons a bs ih =>
    simp only [List.map_cons, List.insertionSort, ih]
    exact orderedInsert_schemaMap s a _

theorem filter_schemaMap (s : List (String × Nat)) :
    ∀ l : List ArtifactRec,
      ((l.map (fun x => { x with featureSchema := s })).filter
          (fun a => a.name = "lgbm_ranker_v1")) =
        (l.filter (fun a => a.name = "lgbm_ranker_v1")).map
          (fun x => { x with featureSchema := s }) := by
  intro l
  induction l with
  | nil => rfl
  | cons a bs ih =>
    simp only [List.map_cons, List.filter]
    cases hname : decide (a.name = "lgbm_ranker_v1") <;> simp [hname, ih]

theorem latestArtifact_upd (db : Db) (s : List (String × Nat)) :
    latestArtifact (updSchema db s) =
      (latestArtifact db).map (fun a => { a with featureSchema := s }) := by
  simp only [latestArtifact, updSchema]
  rw [filter_schemaMap, insertionSort_schemaMap, List.head?_map]

theorem getLatestRanker_fst_upd (db : Db) (s : List (String × Nat)) :
    (getLatestRanker (updSchema db s)).1 = (getLatestRanker db).1 := by
  unfold getLatestRanker
  rw [latestArtifact_upd]
  cases latestArtifact db with
  | none => rfl
  | some a => cases hm : a.model <;> simp [hm]

theorem findTitle_upd (db : Db) (s : List (String × Nat)) (t : Nat) :
    findTitle (updSchema db s) t = findTitle db t := rfl

theorem embFor_upd (db : Db) (s : List (String × Nat)) (t : Nat) :
    embFor (updSchema db s) t = embFor db t := rfl

theorem buildProfileVector_upd (db : Db) (s : List (String × Nat)) (pid l : Nat) :
    buildProfileVector (updSchema db s) pid l = buildProfileVector db pid l := rfl

theorem recentActionIds_upd (db : Db) (s : List (String × Nat)) (pid : Nat) :
    recentActionIds (updSchema db s) pid = recentActionIds db pid := rfl

theorem seenIds_upd (db : Db) (s : List (String × Nat)) (pid : Nat) :
    seenIds (updSchema db s) pid = seenIds db pid := rfl

theorem genreIds_upd (db : Db) (s : List (String × Nat)) (g : String) :
    genreIds (updSchema db s) g = genreIds db g := rfl

theorem topGenres_upd (db : Db) (s : List (String × Nat)) (recent : List Nat) :
    topGenres (updSchema db s) recent = topGenres db recent := rfl

theorem genreLoop_upd (db : Db) (s : List (String × Nat)) (B : Nat) :
    ∀ (gs : List String) (st : PlanSt),
      genreLoop (updSchema db s) B gs st = genreLoop db B gs st := by
  intro gs
  induction gs with
  | nil => intro st; rfl
  | cons g tl ih =>
    intro st
    simp only [genreLoop, genreIds_upd]
    split_ifs <;> simp [ih]

theorem planRows_upd (ctx : Ctx) (db : Db) (s : List (String × Nat))
    (profile : ProfileRec) (recent : List Nat) (B : Nat) :
    planRows ctx (updSchema db s) profile recent B = planRows ctx db profile recent B := by
  unfold planRows
  have hg : genresBlock (updSchema db s) recent B = genresBlock db recent B := by
    funext st
    simp only [genresBlock, topGenres_upd]
    split_ifs <;> simp [genreLoop_upd]
  have hcold : coldBlock (updSchema db s) profile recent B = coldBlock db profile recent B := rfl
  have hfy : forYouBlock (updSchema db s) recent B = forYouBlock db recent B := rfl
  have hbc : becauseBlock (updSchema db s) recent B = becauseBlock db recent B := rfl
  have hsnc : sncBlock (updSchema db s) recent B = sncBlock db recent B := rfl
  have hak : actkwBlock (updSchema db s) recent B = actkwBlock db recent B := rfl
  have hh : hiddenBlock (updSchema db s) B = hiddenBlock db B := rfl
  have hf : freshBlock (updSchema db s) B = freshBlock db B := rfl
  have ht : trendBlock ctx (updSchema db s) profile B = trendBlock ctx db profile B := rfl
  rw [hcold, hfy, hbc, hg, hsnc, hak, hh, hf, ht]

theorem filterCands_upd (db : Db) (s : List (String × Nat)) (excl : List Nat) :
    ∀ (l seen : List Nat),
      filterCands (updSchema db s) excl seen l = filterCands db excl seen l := by
  intro l
  induction l with
  | nil => intro seen; rfl
  | cons tid rest ih =>
    intro seen
    simp only [filterCands, findTitle_upd]
    split_ifs <;> simp [ih]

theorem rankAndPickIds_upd (ctx : Ctx) (db : Db) (s : List (String × Nat))
    (profile : ProfileRec) (pv : Option (List ℚ))
    (m : Option (List (List ℚ) → Option (List ℚ))) (rt : String)
    (cands : List Nat) (k : Nat) (excl : List Nat) :
    rankAndPickIds ctx (updSchema db s) profile pv m rt cands k excl =
      rankAndPickIds ctx db profile pv m rt cands k excl := by
  simp only [rankAndPickIds, filterCands_upd, findTitle_upd, embFor_upd]

theorem rankLoop_upd (ctx : Ctx) (db : Db) (s : List (String × Nat))
    (profile : ProfileRec) (pv : Option (List ℚ))
    (m : Option (List (List ℚ) → Option (List ℚ))) :
    ∀ (planned : List PlannedRow) (excl : List Nat),
      rankLoop ctx (updSchema db s) profile pv m planned excl =
        rankLoop ctx db profile pv m planned excl := by
  intro planned
  induction planned with
  | nil => intro excl; rfl
  | cons p rest ih =>
    intro excl
    obtain ⟨rt, label, cands, k⟩ := p
    simp only [rankLoop, rankAndPickIds_upd]
    split_ifs <;> simp [ih]

/-- C8 (counterexample): the serving feature matrix is not arranged by the
artifact's declared schema — the trained artifact declares eleven columns
(including `age_ok`), while the matrix rows built by `_rank_and_pick_ids`
always have the ten fixed columns; the stored schema is retrieved into
`_schema` and never consulted. -/
theorem C8_counterexample :
    (featVec zeroFeatureRow).length = 10 ∧
    (getLatestRanker dbSchema).2.length = 11 ∧ (10 : Nat) ≠ 11 :=
  ⟨rfl, rfl, by decide⟩

/-- C8 (amended): when a model is loaded it is applied to the feature
matrix in the fixed hardcoded column order `[cosine, popularity,
vote_average, log1p(vote_count), freshness_days, lang_match, is_movie,
is_tv, position, row_hash]`; the artifact's declared feature schema is
never consulted — the whole response is invariant under replacing the
stored schema by anything. -/
theorem C8_schema_not_consulted (ctx : Ctx) (db : Db) (profile : ProfileRec)
    (B : Nat) (s : List (String × Nat)) :
    recoHomeRows ctx (updSchema db s) profile B = recoHomeRows ctx db profile B ∧
    ∀ f : FeatureRow, featVec f =
      [f.cosine, f.popularity, f.voteAverage, f.logVoteCount, f.freshness,
       f.langMatch, f.isMovie, f.isTv, f.position, f.rowHash] := by
  refine ⟨?_, fun f => rfl⟩
  simp only [recoHomeRows, getLatestRanker_fst_upd, buildProfileVector_upd,
    recentActionIds_upd, seenIds_upd, planRows_upd, rankLoop_upd, findTitle_upd]

theorem C9_witness :
    recentActionIds dbColdImp 2 = [] ∧
    (HomeRow.mk "popular" "Popular right now" [7, 8, 9, 10]).rowType ∈
      nonPersonalizedKeys ∧
    recentActionIds dbWarm 1 = [1, 2] ∧
    (∃ p ∈ planRows ctx0 dbWarm pWarm (recentActionIds dbWarm 1) 1000,
      p.1 = "because:" ++ toString 1 ∧
      p.2.1 = "Because you watched " ++ seedName dbWarm 1) :=
  ⟨by decide,
    (C9_cold_warm_amended ctx0 dbColdImp pCold 1000).1 (by decide) _ (by decide),
    by decide,
    (C9_cold_warm_amended ctx0 dbWarm pWarm 1000).2 1 [2] (by decide) (by decide)⟩

end Reco
